import Mathlib

/-!
# URL shortener: link service over the record store

A shallow embedding of `internal/service/url_service.go` and
`internal/repository/url_repository.go`.

* The service is written against the Go interface `repository.URLRepository`;
  here it is written against the record `URLRepository σ`, whose operations pass
  the store state `σ` explicitly.
* `NewURLRepository` is the GORM-backed implementation, over a table of `URL` rows.
  Every SQL statement a repository method issues is appended to `DB.log`.
* `url.Parse` (Go standard library) is an input of the functions that call it.
* `gonanoid.New` (random generator) is a tape of results together with the number
  of calls made so far.
* `go s.repo.IncrementClicks(code)` spawns a goroutine: `RedirectAndCount` returns
  the spawned work, and `Sys` keeps the goroutines that have not run yet.
* `config.InitDB` opens SQLite unless `DB_HOST` is set, and PostgreSQL otherwise. The
  two engines store and compare `created_at` differently, so `DB` records the engine.
-/

namespace UrlShortener

/-! ## Data model -/

/-- Go `error` values that reach the service: the GORM sentinel
`gorm.ErrRecordNotFound`, a value built by `errors.New`, and any other error
reported by a library or the database driver. -/
inductive Error where
  | ErrRecordNotFound
  | New (msg : String)
  | Driver (msg : String)
  deriving DecidableEq, Repr

/-- The `error` half of a Go result pair: `nil` is `none`. -/
def errOf {α : Type} : Except Error α → Option Error
  | .ok _ => none
  | .error err => some err

/-- `errors.Is(err, target)` for the errors of this model, none of which wraps another. -/
def errorsIs (err : Option Error) (target : Error) : Bool :=
  err == some target

/-- The struct `model.URL`. Pointer fields are options; the zero `time.Time` is `0`.
`Clicks` is the SQL integer column `clicks`. A `time.Time` is an instant together with
a location: `CreatedAt` is the instant and `CreatedAtOffset` the UTC offset of its
location, in the unit of the clock readings (UTC when left out). The location of
`UpdatedAt` plays no part in any query of this program and is not recorded. -/
structure URL where
  ID : Nat
  UserID : Option Nat
  AnonymousID : Option String
  ShortCode : String
  OriginalURL : String
  Clicks : Int
  CreatedAt : Nat
  UpdatedAt : Nat
  CreatedAtOffset : Int := 0
  deriving DecidableEq, Repr

/-- The two fields of Go's `url.URL` that `isValidURL` reads. -/
structure NetURL where
  Scheme : String
  Host : String
  deriving DecidableEq, Repr

/-- Go's `[]model.URL`. -/
abbrev URLs : Type := List URL

/-- SQL statements issued by the repository. -/
inductive Stmt where
  | InsertURL (row : URL)
  | SelectByShortCode (code : String)
  | SelectByOriginalURL (originalURL : String)
  | SelectAll
  | SelectByUserID (userID : Nat)
  | SelectByAnonymousID (anonymousID : String)
  | UpdateClicks (code : String)
  | UpdateUserID (anonymousID : String) (userID : Nat)
  | UpdateAnonymousID (anonymousID : String)
  deriving DecidableEq, Repr

/-- Whether a statement is a read query (`SELECT`). -/
def Stmt.isRead : Stmt → Bool
  | .SelectByShortCode _ => true
  | .SelectByOriginalURL _ => true
  | .SelectAll => true
  | .SelectByUserID _ => true
  | .SelectByAnonymousID _ => true
  | .InsertURL _ => false
  | .UpdateClicks _ => false
  | .UpdateUserID _ _ => false
  | .UpdateAnonymousID _ => false

/-- The engine `config.InitDB` opens: SQLite by default, PostgreSQL when `DB_HOST` is
set. -/
inductive Engine where
  | sqlite
  | postgres
  deriving DecidableEq, Repr

/-- The database behind `*gorm.DB`: the rows of table `urls` in insertion order and
the statements executed so far, oldest first; the engine (SQLite when left out); and
the UTC offset of the local time zone at present, which is the location of the times
that GORM's `NowFunc` (`time.Now().Local()`) returns (UTC when left out). The offset
changes when daylight saving starts or ends. -/
structure DB where
  urls : List URL
  log : List Stmt
  engine : Engine := .sqlite
  utcOffset : Int := 0
  deriving DecidableEq, Repr

/-- The interface `repository.URLRepository`, with the store state passed explicitly. -/
structure URLRepository (σ : Type) where
  Create : URL → σ → Except Error URL × σ
  FindByShortCode : String → σ → Except Error URL × σ
  FindByOriginalURL : String → σ → Except Error URL × σ
  IncrementClicks : String → σ → Except Error Unit × σ
  List : σ → Except Error URLs × σ
  ListByUserID : Nat → σ → Except Error URLs × σ
  ListByAnonymousID : String → σ → Except Error URLs × σ
  ClaimAnonymousURLs : Nat → String → σ → Except Error Unit × σ

/-! ## Repository (`url_repository.go`) -/

/-- Record a statement in the log. -/
def DB.exec (q : Stmt) (db : DB) : DB :=
  { db with log := db.log ++ [q] }

/-- GORM `First`: `ORDER BY id LIMIT 1` over the selected rows. -/
def firstByID : List URL → Option URL
  | [] => none
  | u :: rest =>
    match firstByID rest with
    | none => some u
    | some v => if v.ID < u.ID then some v else some u

/-- The key the engine assigns to a row inserted without one: one more than the
largest key in the table. -/
def freshID (rows : List URL) : Nat :=
  (rows.map (fun r => r.ID)).foldr max 0 + 1

/-- `UPDATE urls SET ... WHERE ...`: `set` is applied to every row satisfying `cond`. -/
def updateWhere (cond : URL → Bool) (set : URL → URL) (rows : List URL) : List URL :=
  rows.map (fun r => if cond r then set r else r)

/-- The local wall-clock time of `created_at`: the instant shifted by the UTC offset of
its location. -/
def URL.wallClock (r : URL) : Int :=
  (r.CreatedAt : Int) + r.CreatedAtOffset

/-- The order of two UTC offsets written as text, `+hh:mm` or `-hh:mm`: the sign `+`
sorts before `-`, and behind equal signs the digits sort by magnitude. -/
def offsetTextLE (o1 o2 : Int) : Bool :=
  if 0 ≤ o1 then
    if 0 ≤ o2 then decide (o1 ≤ o2) else true
  else
    if 0 ≤ o2 then false else decide (o2 ≤ o1)

/-- How the engine compares the column `created_at` of two rows, `a ≤ b`.
PostgreSQL stores a `timestamptz` and compares instants. SQLite stores the text that
the driver formats from the `time.Time`, local date and time followed by the UTC
offset (`2006-01-02 15:04:05.999999999-07:00`), and compares the texts: first the
local wall-clock time, then the offset text. -/
def createdAtLE : Engine → URL → URL → Bool
  | .postgres, a, b => decide (a.CreatedAt ≤ b.CreatedAt)
  | .sqlite, a, b =>
    decide (a.wallClock < b.wallClock) ||
      (decide (a.wallClock = b.wallClock) &&
        offsetTextLE a.CreatedAtOffset b.CreatedAtOffset)

/-- `ORDER BY created_at DESC`, in the engine's order of the column. -/
def orderByCreatedAtDesc (engine : Engine) (rows : List URL) : List URL :=
  rows.insertionSort (fun a b => createdAtLE engine b a = true)

namespace urlRepository

/-- The row as GORM writes it: a zero `ID` is assigned by the engine, and zero
timestamps are stamped with the current time `now`, in the local time zone. -/
def fill (now : Nat) (url : URL) (db : DB) : URL :=
  { url with
    ID := if url.ID = 0 then freshID db.urls else url.ID
    CreatedAt := if url.CreatedAt = 0 then now else url.CreatedAt
    UpdatedAt := if url.UpdatedAt = 0 then now else url.UpdatedAt
    CreatedAtOffset := if url.CreatedAt = 0 then db.utcOffset else url.CreatedAtOffset }

/-- `r.db.Create(url).Error`. The insert is rejected when the primary key or the
unique index on `short_code` is already taken. The filled-in struct is returned in
place of Go's write through the pointer. -/
def Create (now : Nat) (url : URL) (db : DB) : Except Error URL × DB :=
  let row := fill now url db
  if db.urls.any (fun r => r.ID == row.ID) then
    (.error (.Driver "UNIQUE constraint failed: urls.id"), db.exec (.InsertURL row))
  else if db.urls.any (fun r => r.ShortCode == row.ShortCode) then
    (.error (.Driver "UNIQUE constraint failed: urls.short_code"), db.exec (.InsertURL row))
  else
    (.ok row, { db with urls := db.urls ++ [row], log := db.log ++ [.InsertURL row] })

/-- `r.db.Where("short_code = ?", code).First(&url)`. -/
def FindByShortCode (code : String) (db : DB) : Except Error URL × DB :=
  match firstByID (db.urls.filter (fun r => r.ShortCode == code)) with
  | some r => (.ok r, db.exec (.SelectByShortCode code))
  | none => (.error .ErrRecordNotFound, db.exec (.SelectByShortCode code))

/-- `r.db.Where("original_url = ?", originalURL).First(&url)`. -/
def FindByOriginalURL (originalURL : String) (db : DB) : Except Error URL × DB :=
  match firstByID (db.urls.filter (fun r => r.OriginalURL == originalURL)) with
  | some r => (.ok r, db.exec (.SelectByOriginalURL originalURL))
  | none => (.error .ErrRecordNotFound, db.exec (.SelectByOriginalURL originalURL))

/-- `UpdateColumn("clicks", gorm.Expr("clicks + ?", 1))` on the rows with the given
short code. `UpdateColumn` skips hooks and time tracking, so `updated_at` is not
touched; an update matching no row is not an error. The addition is SQL integer
addition; behaviour at the top of the column range is engine-specific and outside
this model. -/
def IncrementClicks (code : String) (db : DB) : Except Error Unit × DB :=
  (.ok (),
    { db with
      urls := updateWhere (fun r => r.ShortCode == code)
        (fun r => { r with Clicks := r.Clicks + 1 }) db.urls
      log := db.log ++ [.UpdateClicks code] })

/-- `r.db.Order("created_at DESC").Find(&urls)`. -/
def List (db : DB) : Except Error URLs × DB :=
  (.ok (orderByCreatedAtDesc db.engine db.urls), db.exec .SelectAll)

/-- `r.db.Where("user_id = ?", userID).Order("created_at DESC").Find(&urls)`. -/
def ListByUserID (userID : Nat) (db : DB) : Except Error URLs × DB :=
  (.ok (orderByCreatedAtDesc db.engine (db.urls.filter (fun r => r.UserID == some userID))),
    db.exec (.SelectByUserID userID))

/-- `r.db.Where("anonymous_id = ?", anonymousID).Order("created_at DESC").Find(&urls)`. -/
def ListByAnonymousID (anonymousID : String) (db : DB) : Except Error URLs × DB :=
  (.ok (orderByCreatedAtDesc db.engine
      (db.urls.filter (fun r => r.AnonymousID == some anonymousID))),
    db.exec (.SelectByAnonymousID anonymousID))

/-- The condition `anonymous_id = ? AND user_id IS NULL`. -/
def claimCond (anonymousID : String) (r : URL) : Bool :=
  r.AnonymousID == some anonymousID && r.UserID == none

/-- The chain `Model(..).Where(..).Update("user_id", userID).Update("anonymous_id", nil)`.
`Update` is a GORM finisher method: each call builds and executes one `UPDATE`
statement at once and returns the same `*gorm.DB`, whose statement still carries
the `WHERE` clause added by `Where`. So the chain runs two statements one after the
other,

    UPDATE urls SET user_id = ?, updated_at = ? WHERE anonymous_id = ? AND user_id IS NULL
    UPDATE urls SET anonymous_id = NULL, updated_at = ? WHERE anonymous_id = ? AND user_id IS NULL

each with the condition `claimCond` evaluated on the table as it is at that moment,
and each stamping `updated_at` (time tracking of `Update`) on the rows it matches.
The returned error is that of the last statement. -/
def ClaimAnonymousURLs (now : Nat) (userID : Nat) (anonymousID : String) (db : DB) :
    Except Error Unit × DB :=
  let rows1 := updateWhere (claimCond anonymousID)
    (fun r => { r with UserID := some userID, UpdatedAt := now }) db.urls
  let rows2 := updateWhere (claimCond anonymousID)
    (fun r => { r with AnonymousID := none, UpdatedAt := now }) rows1
  (.ok (),
    { db with
      urls := rows2
      log := db.log ++ [.UpdateUserID anonymousID userID, .UpdateAnonymousID anonymousID] })

end urlRepository

/-- `NewURLRepository(db)`: the GORM implementation of the interface, at wall-clock
reading `now`. -/
def NewURLRepository (now : Nat) : URLRepository DB where
  Create := urlRepository.Create now
  FindByShortCode := urlRepository.FindByShortCode
  FindByOriginalURL := urlRepository.FindByOriginalURL
  IncrementClicks := urlRepository.IncrementClicks
  List := urlRepository.List
  ListByUserID := urlRepository.ListByUserID
  ListByAnonymousID := urlRepository.ListByAnonymousID
  ClaimAnonymousURLs := urlRepository.ClaimAnonymousURLs now

/-! ## Service (`url_service.go`) -/

/-- `isValidURL`: `u, err := url.Parse(str); err == nil && u.Scheme != "" && u.Host != ""`.
`urlParse` stands for `url.Parse`. -/
def isValidURL (urlParse : String → Except Error NetURL) (str : String) : Bool :=
  match urlParse str with
  | .ok u => u.Scheme != "" && u.Host != ""
  | .error _ => false

namespace urlService

/-- `maxRetries := 5`. -/
def maxRetries : Nat := 5

/-- The loop of `generateUniqueCode` with `n` iterations remaining. `tape` lists the
results of the successive calls `gonanoid.New(8)` and `k` counts the calls made so
far, so the next call returns `tape k`. Every lookup result other than
`gorm.ErrRecordNotFound` (a row, or another error) moves on to the next iteration. -/
def generateUniqueCodeLoop {σ : Type} (repo : URLRepository σ)
    (tape : Nat → Except Error String) : Nat → Nat → σ → Except Error String × σ × Nat
  | 0, k, s => (.error (.New "failed to generate unique code"), s, k)
  | n + 1, k, s =>
    match tape k with
    | .error err => (.error err, s, k + 1)
    | .ok code =>
      let found := repo.FindByShortCode code s
      if errorsIs (errOf found.1) .ErrRecordNotFound then
        (.ok code, found.2, k + 1)
      else
        generateUniqueCodeLoop repo tape n (k + 1) found.2

/-- `generateUniqueCode`. -/
def generateUniqueCode {σ : Type} (repo : URLRepository σ)
    (tape : Nat → Except Error String) (k : Nat) (s : σ) : Except Error String × σ × Nat :=
  generateUniqueCodeLoop repo tape maxRetries k s

/-- `CreateShortURL`. -/
def CreateShortURL {σ : Type} (urlParse : String → Except Error NetURL)
    (repo : URLRepository σ) (tape : Nat → Except Error String)
    (originalURL : String) (userID : Option Nat) (anonymousID : Option String)
    (k : Nat) (s : σ) : Except Error URL × σ × Nat :=
  if !isValidURL urlParse originalURL then
    (.error (.New "invalid URL format"), s, k)
  else
    let allocated := generateUniqueCode repo tape k s
    match allocated.1 with
    | .error err => (.error err, allocated.2.1, allocated.2.2)
    | .ok shortCode =>
      let urlEntry : URL :=
        { ID := 0, UserID := userID, AnonymousID := anonymousID, ShortCode := shortCode,
          OriginalURL := originalURL, Clicks := 0, CreatedAt := 0, UpdatedAt := 0 }
      let created := repo.Create urlEntry allocated.2.1
      match created.1 with
      | .error err => (.error err, created.2, allocated.2.2)
      | .ok stored => (.ok stored, created.2, allocated.2.2)

/-- `GetByShortCode`. -/
def GetByShortCode {σ : Type} (repo : URLRepository σ) (code : String) (s : σ) :
    Except Error URL × σ :=
  repo.FindByShortCode code s

/-- `RedirectAndCount`, returning Go's pair `(string, error)` with `nil` as `none`.
The last component lists the goroutines spawned by
`go s.repo.IncrementClicks(code)`: each entry is the code to increment. -/
def RedirectAndCount {σ : Type} (repo : URLRepository σ) (code : String) (s : σ) :
    (String × Option Error) × σ × List String :=
  let found := repo.FindByShortCode code s
  match found.1 with
  | .error err =>
    if errorsIs (some err) .ErrRecordNotFound then
      (("", some (.New "short URL not found")), found.2, [])
    else
      (("", some err), found.2, [])
  | .ok urlEntry => ((urlEntry.OriginalURL, none), found.2, [code])

/-- `ListURLs`. -/
def ListURLs {σ : Type} (repo : URLRepository σ) (s : σ) : Except Error URLs × σ :=
  repo.List s

/-- `ListUserURLs`. -/
def ListUserURLs {σ : Type} (repo : URLRepository σ) (userID : Nat) (s : σ) :
    Except Error URLs × σ :=
  repo.ListByUserID userID s

/-- `ListAnonymousURLs`. -/
def ListAnonymousURLs {σ : Type} (repo : URLRepository σ) (anonymousID : String) (s : σ) :
    Except Error URLs × σ :=
  repo.ListByAnonymousID anonymousID s

/-- `ClaimAnonymousURLs`. -/
def ClaimAnonymousURLs {σ : Type} (repo : URLRepository σ) (userID : Nat)
    (anonymousID : String) (s : σ) : Except Error Unit × σ :=
  repo.ClaimAnonymousURLs userID anonymousID s

end urlService

/-! ## The running service

`main.go` wires `NewURLService(NewURLRepository(db))`. Requests are handled one
after another; the goroutines spawned by `RedirectAndCount` run at any later point. -/

/-- State of the running service: the database, the number of `gonanoid.New` calls
made so far, and the codes of the spawned `IncrementClicks` goroutines that have
not run yet. -/
structure Sys where
  db : DB
  draws : Nat
  goroutines : List String
  deriving DecidableEq, Repr

/-- A call of one method of the interface `URLService`, with its arguments. -/
inductive Op where
  | CreateShortURL (originalURL : String) (userID : Option Nat) (anonymousID : Option String)
  | GetByShortCode (code : String)
  | RedirectAndCount (code : String)
  | ListURLs
  | ListUserURLs (userID : Nat)
  | ListAnonymousURLs (anonymousID : String)
  | ClaimAnonymousURLs (userID : Nat) (anonymousID : String)
  deriving DecidableEq, Repr

/-- What a call returns. -/
inductive Reply where
  | link (r : Except Error URL)
  | target (r : String × Option Error)
  | links (r : Except Error URLs)
  | done (r : Except Error Unit)

/-- One service call at wall-clock reading `now`. -/
def Sys.call (urlParse : String → Except Error NetURL) (tape : Nat → Except Error String)
    (now : Nat) : Op → Sys → Reply × Sys
  | .CreateShortURL originalURL userID anonymousID, w =>
    match urlService.CreateShortURL urlParse (NewURLRepository now) tape
        originalURL userID anonymousID w.draws w.db with
    | (r, db1, k1) => (.link r, { w with db := db1, draws := k1 })
  | .GetByShortCode code, w =>
    match urlService.GetByShortCode (NewURLRepository now) code w.db with
    | (r, db1) => (.link r, { w with db := db1 })
  | .RedirectAndCount code, w =>
    match urlService.RedirectAndCount (NewURLRepository now) code w.db with
    | (r, db1, spawned) =>
      (.target r, { w with db := db1, goroutines := w.goroutines ++ spawned })
  | .ListURLs, w =>
    match urlService.ListURLs (NewURLRepository now) w.db with
    | (r, db1) => (.links r, { w with db := db1 })
  | .ListUserURLs userID, w =>
    match urlService.ListUserURLs (NewURLRepository now) userID w.db with
    | (r, db1) => (.links r, { w with db := db1 })
  | .ListAnonymousURLs anonymousID, w =>
    match urlService.ListAnonymousURLs (NewURLRepository now) anonymousID w.db with
    | (r, db1) => (.links r, { w with db := db1 })
  | .ClaimAnonymousURLs userID anonymousID, w =>
    match urlService.ClaimAnonymousURLs (NewURLRepository now) userID anonymousID w.db with
    | (r, db1) => (.done r, { w with db := db1 })

/-- The scheduler runs the pending goroutine number `j`: it executes
`s.repo.IncrementClicks(code)` and its result is discarded. -/
def Sys.runGoroutine (j : Nat) (w : Sys) : Sys :=
  match w.goroutines.get? j with
  | none => w
  | some code =>
    { w with
      db := (urlRepository.IncrementClicks code w.db).2
      goroutines := w.goroutines.eraseIdx j }

/-- What happens next: a request is served, or a pending goroutine runs. -/
inductive Event where
  | call (now : Nat) (op : Op)
  | run (j : Nat)
  deriving DecidableEq, Repr

/-- One event; the replies produced (one for a call, none for a goroutine). -/
def Sys.step (urlParse : String → Except Error NetURL) (tape : Nat → Except Error String) :
    Event → Sys → List Reply × Sys
  | .call now op, w =>
    match Sys.call urlParse tape now op w with
    | (r, w1) => ([r], w1)
  | .run j, w => ([], Sys.runGoroutine j w)

/-- A sequence of events, oldest first, with the replies in order. -/
def Sys.exec (urlParse : String → Except Error NetURL) (tape : Nat → Except Error String) :
    List Event → Sys → List Reply × Sys
  | [], w => ([], w)
  | e :: es, w =>
    match Sys.step urlParse tape e w with
    | (rs, w1) =>
      match Sys.exec urlParse tape es w1 with
      | (rs2, w2) => (rs ++ rs2, w2)

/-! ## URL handler (`handler/url_handler.go`) -/

/-- The text of an error, `err.Error()`. -/
def errorText : Error → String
  | .ErrRecordNotFound => "record not found"
  | .New msg => msg
  | .Driver msg => msg

/-- The struct `CreateURLRequest`. -/
structure CreateURLRequest where
  URL : String
  AnonymousID : Option String
  deriving DecidableEq, Repr

/-- A compact JWT as a string, symbolically: either the HS256-signed serialisation of
`claims`, whose signature verifies under `key` and no other key, or some other text.
The fields of `claims` are `Claims.UserID`, `Claims.Username` and the promoted fields
of the embedded `jwt.RegisteredClaims` that this program sets; times are in
nanoseconds since the epoch. -/
inductive TokenString where
  | text (s : String)
  | signed (UserID : Nat) (Username : String) (ExpiresAt IssuedAt NotBefore : Option Nat)
      (key : String)
  deriving DecidableEq, Repr

/-- JSON bodies written by the handlers: `ErrorResponse`, `CreateURLResponse` and
`RefreshResponse`. -/
inductive Body where
  | ErrorResponse (Error : String)
  | CreateURLResponse (ShortCode ShortURL OriginalURL AnonymousID : String)
  | RefreshResponse (AccessToken RefreshToken : TokenString) (Message : String)
  deriving DecidableEq, Repr

/-- What `c.JSON(status, body)` sends. -/
structure Response where
  status : Nat
  body : Body
  deriving DecidableEq, Repr

/-- `const charset = "abcdefghijklmnopqrstuvwxyz0123456789"`. -/
def charset : List Char :=
  ['a', 'b', 'c', 'd', 'e', 'f', 'g', 'h', 'i', 'j', 'k', 'l', 'm', 'n', 'o', 'p', 'q', 'r',
    's', 't', 'u', 'v', 'w', 'x', 'y', 'z', '0', '1', '2', '3', '4', '5', '6', '7', '8', '9']

/-- `generateRandomString`: `result[i] = charset[i%len(charset)]` for every index `i`
below `length`. The function reads no random source. -/
def generateRandomString (length : Nat) : String :=
  String.mk ((List.range length).map (fun i => charset.getD (i % charset.length) 'a'))

/-- `generateAnonymousID`: `"anon-" + generateRandomString(32)`. The Go function has no
parameter and reads no state, clock or random source, so it is a constant. -/
def generateAnonymousID : String :=
  "anon-" ++ generateRandomString 32

namespace URLHandler

/-- `c.ShouldBindJSON(&req)` for `CreateURLRequest`: `body` is the decoded JSON body
(`none` when it does not decode), and `binding:"required"` rejects an empty `url`. -/
def bindCreateURLRequest (body : Option CreateURLRequest) : Option CreateURLRequest :=
  match body with
  | none => none
  | some req => if req.URL = "" then none else some req

/-- The owner pair the handler passes to the service: `ctxUserID` is the value of
`c.Get("userID")`, set by the JWT middleware for an authenticated request. -/
def owner (ctxUserID : Option Nat) (req : CreateURLRequest) : Option Nat × Option String :=
  match ctxUserID with
  | some id => (some id, none)
  | none =>
    match req.AnonymousID with
    | some a => if a ≠ "" then (none, some a) else (none, some generateAnonymousID)
    | none => (none, some generateAnonymousID)

/-- `URLHandler.CreateShortURL`, with the service wired to `repo` as in `main.go`. -/
def CreateShortURL {σ : Type} (urlParse : String → Except Error NetURL)
    (repo : URLRepository σ) (tape : Nat → Except Error String)
    (body : Option CreateURLRequest) (ctxUserID : Option Nat) (k : Nat) (s : σ) :
    Response × σ × Nat :=
  match bindCreateURLRequest body with
  | none => ({ status := 400, body := .ErrorResponse "URL is required" }, s, k)
  | some req =>
    let userID := (owner ctxUserID req).1
    let anonymousID := (owner ctxUserID req).2
    let out := urlService.CreateShortURL urlParse repo tape req.URL userID anonymousID k s
    match out.1 with
    | .error err => ({ status := 400, body := .ErrorResponse (errorText err) }, out.2.1, out.2.2)
    | .ok urlEntry =>
      ({ status := 201
         body := .CreateURLResponse urlEntry.ShortCode
           ("http://localhost:8080/" ++ urlEntry.ShortCode) urlEntry.OriginalURL
           (match anonymousID with
            | some a => a
            | none => "") },
        out.2.1, out.2.2)

end URLHandler

/-! ## User service (`service/user_service.go`) -/

/-- The struct `model.User`. -/
structure User where
  ID : Nat
  Username : String
  Password : String
  Email : String
  CreatedAt : Nat
  UpdatedAt : Nat
  deriving DecidableEq, Repr

/-- The methods of the interface `repository.UserRepository` that the user service
calls, with the store state passed explicitly. The file declaring the interface and
its implementation is not among the sources, so the repository is a parameter. -/
structure UserRepository (σ : Type) where
  Create : User → σ → Except Error User × σ
  FindByUsername : String → σ → Except Error User × σ
  FindByID : Nat → σ → Except Error User × σ

namespace userService

/-- `Register`. `bcryptGenerate` stands for
`bcrypt.GenerateFromPassword([]byte(password), bcrypt.DefaultCost)`. -/
def Register {σ : Type} (repo : UserRepository σ)
    (bcryptGenerate : String → Except Error String)
    (username email password : String) (s : σ) : Except Error User × σ :=
  let found := repo.FindByUsername username s
  if errOf found.1 = none then
    (.error (.New "username already exists"), found.2)
  else
    match bcryptGenerate password with
    | .error _ => (.error (.New "failed to hash password"), found.2)
    | .ok hashedPassword =>
      let user : User :=
        { ID := 0, Username := username, Email := email, Password := hashedPassword,
          CreatedAt := 0, UpdatedAt := 0 }
      let created := repo.Create user found.2
      match created.1 with
      | .error err => (.error err, created.2)
      | .ok stored => (.ok stored, created.2)

/-- `Login`. `bcryptCompare hash password` stands for
`bcrypt.CompareHashAndPassword([]byte(hash), []byte(password))`, `none` being `nil`. -/
def Login {σ : Type} (repo : UserRepository σ)
    (bcryptCompare : String → String → Option Error)
    (username password : String) (s : σ) : Except Error User × σ :=
  let found := repo.FindByUsername username s
  match found.1 with
  | .error err =>
    if errorsIs (some err) .ErrRecordNotFound then
      (.error (.New "invalid credentials"), found.2)
    else
      (.error err, found.2)
  | .ok user =>
    match bcryptCompare user.Password password with
    | some _ => (.error (.New "invalid credentials"), found.2)
    | none => (.ok user, found.2)

/-- `GetByID`. -/
def GetByID {σ : Type} (repo : UserRepository σ) (id : Nat) (s : σ) :
    Except Error User × σ :=
  repo.FindByID id s

/-- `ValidateCredentials`. -/
def ValidateCredentials {σ : Type} (repo : UserRepository σ)
    (bcryptCompare : String → String → Option Error)
    (username password : String) (s : σ) : Except Error User × σ :=
  Login repo bcryptCompare username password s

end userService

/-- Modelled from the spec: the user store behind `repository.UserRepository`
(`internal/repository/user_repository.go` is not among the sources). The spec's record
store offers create and find-by-unique-key, and enforces uniqueness of
`User.username` and `User.email`. The state is the list of user records. -/
def userRepositoryModel (now : Nat) : UserRepository (List User) where
  Create := fun user users =>
    if users.any (fun r => r.Username == user.Username || r.Email == user.Email) then
      (.error (.Driver "UNIQUE constraint failed"), users)
    else
      (.ok { user with
               ID := (users.map (fun r => r.ID)).foldr max 0 + 1
               CreatedAt := now
               UpdatedAt := now },
        users ++ [{ user with
               ID := (users.map (fun r => r.ID)).foldr max 0 + 1
               CreatedAt := now
               UpdatedAt := now }])
  FindByUsername := fun username users =>
    match users.find? (fun r => r.Username == username) with
    | some r => (.ok r, users)
    | none => (.error .ErrRecordNotFound, users)
  FindByID := fun id users =>
    match users.find? (fun r => r.ID == id) with
    | some r => (.ok r, users)
    | none => (.error .ErrRecordNotFound, users)

/-! ## Token issuer (`middleware/jwt_auth.go`) and token refresh (`handler/auth_handler.go`)

Times are nanoseconds since the epoch, the resolution of `time.Now()`. `clock` lists
the readings of successive calls of `time.Now()` and the counter next to it says how
many have been made. -/

/-- `time.Second`, in nanoseconds. -/
def Second : Nat := 1000000000

/-- `time.Minute`. -/
def Minute : Nat := 60 * Second

/-- `time.Hour`. -/
def Hour : Nat := 60 * Minute

/-- `jwt.NewNumericDate(t)` of `golang-jwt/jwt/v5`: the library truncates the time to
its `TimePrecision`, one second. -/
def NewNumericDate (t : Nat) : Nat :=
  t - t % Second

/-- The struct `RefreshRequest`. -/
structure RefreshRequest where
  RefreshToken : TokenString
  deriving DecidableEq, Repr

/-- The struct `Claims`, with the promoted fields of `jwt.RegisteredClaims` that this
program sets. -/
structure Claims where
  UserID : Nat
  Username : String
  ExpiresAt : Option Nat
  IssuedAt : Option Nat
  NotBefore : Option Nat
  deriving DecidableEq, Repr

namespace middleware

/-- `jwt.NewWithClaims(jwt.SigningMethodHS256, claims)` followed by
`token.SignedString(jwtSecret)`. HMAC signing with a byte-slice key does not fail. -/
def SignedString (claims : Claims) (jwtSecret : String) : Except Error TokenString :=
  .ok (.signed claims.UserID claims.Username claims.ExpiresAt claims.IssuedAt
    claims.NotBefore jwtSecret)

/-- The claims built by `GenerateAccessToken`; its three `time.Now()` calls read
`clock c`, `clock (c + 1)` and `clock (c + 2)`. -/
def accessClaims (clock : Nat → Nat) (c : Nat) (userID : Nat) (username : String) : Claims :=
  { UserID := userID, Username := username
    ExpiresAt := some (NewNumericDate (clock c + 15 * Minute))
    IssuedAt := some (NewNumericDate (clock (c + 1)))
    NotBefore := some (NewNumericDate (clock (c + 2))) }

/-- `GenerateAccessToken`. -/
def GenerateAccessToken (jwtSecret : String) (clock : Nat → Nat) (c : Nat) (userID : Nat)
    (username : String) : Except Error TokenString × Nat :=
  (SignedString (accessClaims clock c userID username) jwtSecret, c + 3)

/-- The claims built by `GenerateRefreshToken`. -/
def refreshClaims (clock : Nat → Nat) (c : Nat) (userID : Nat) (username : String) : Claims :=
  { UserID := userID, Username := username
    ExpiresAt := some (NewNumericDate (clock c + 7 * 24 * Hour))
    IssuedAt := some (NewNumericDate (clock (c + 1)))
    NotBefore := some (NewNumericDate (clock (c + 2))) }

/-- `GenerateRefreshToken`. -/
def GenerateRefreshToken (jwtSecret : String) (clock : Nat → Nat) (c : Nat) (userID : Nat)
    (username : String) : Except Error TokenString × Nat :=
  (SignedString (refreshClaims clock c userID username) jwtSecret, c + 3)

/-- The claims validation of `jwt/v5` with its default options, at time `now`:
`exp` must lie after `now` (`now.Before(exp)`), `nbf` must not lie after `now`;
an absent claim passes and `iat` is not checked. -/
def claimsValid (now : Nat) (claims : Claims) : Bool :=
  (match claims.ExpiresAt with
    | some exp => decide (now < exp)
    | none => true) &&
  (match claims.NotBefore with
    | some nbf => decide (nbf ≤ now)
    | none => true)

/-- `jwt.ParseWithClaims(tokenString, &Claims{}, keyFunc)` where `keyFunc` returns
`jwtSecret`: the text must be a signed token, the signature must verify under
`jwtSecret`, and then the claims are validated against one reading of the clock. -/
def ParseWithClaims (jwtSecret : String) (clock : Nat → Nat) (c : Nat) :
    TokenString → Except Error Claims × Nat
  | .text _ => (.error (.Driver "token is malformed"), c)
  | .signed userID username exp iat nbf key =>
    if key ≠ jwtSecret then
      (.error (.Driver "token signature is invalid"), c)
    else if claimsValid (clock c)
        { UserID := userID, Username := username, ExpiresAt := exp, IssuedAt := iat,
          NotBefore := nbf } then
      (.ok { UserID := userID, Username := username, ExpiresAt := exp, IssuedAt := iat,
             NotBefore := nbf }, c + 1)
    else
      (.error (.Driver "token has invalid claims"), c + 1)

/-- `ValidateToken`. A token returned without error by `ParseWithClaims` carries
`*Claims` and has `Valid` set, so the final `return nil, jwt.ErrSignatureInvalid` is
not reached. -/
def ValidateToken (jwtSecret : String) (clock : Nat → Nat) (c : Nat)
    (tokenString : TokenString) : Except Error Claims × Nat :=
  let parsed := ParseWithClaims jwtSecret clock c tokenString
  match parsed.1 with
  | .error err => (.error err, parsed.2)
  | .ok claims => (.ok claims, parsed.2)

end middleware

namespace AuthHandler

/-- `c.ShouldBindJSON(&req)` for `RefreshRequest`: `body` is the decoded JSON body, or
the decoder's error text, and `binding:"required"` rejects an empty `refresh_token`
with the validator's error text. -/
def bindRefreshRequest (body : Except String RefreshRequest) : Except String RefreshRequest :=
  match body with
  | .error msg => .error msg
  | .ok req =>
    if req.RefreshToken = .text "" then
      .error ("Key: 'RefreshRequest.RefreshToken' Error:" ++
        "Field validation for 'RefreshToken' failed on the 'required' tag")
    else .ok req

/-- `AuthHandler.Refresh`. -/
def Refresh (jwtSecret : String) (clock : Nat → Nat) (c : Nat)
    (body : Except String RefreshRequest) : Response × Nat :=
  match bindRefreshRequest body with
  | .error msg => ({ status := 400, body := .ErrorResponse msg }, c)
  | .ok req =>
    let validated := middleware.ValidateToken jwtSecret clock c req.RefreshToken
    match validated.1 with
    | .error _ =>
      ({ status := 401, body := .ErrorResponse "Invalid or expired refresh token" },
        validated.2)
    | .ok claims =>
      let access := middleware.GenerateAccessToken jwtSecret clock validated.2
        claims.UserID claims.Username
      match access.1 with
      | .error _ =>
        ({ status := 500, body := .ErrorResponse "Failed to generate access token" },
          access.2)
      | .ok accessToken =>
        let refresh := middleware.GenerateRefreshToken jwtSecret clock access.2
          claims.UserID claims.Username
        match refresh.1 with
        | .error _ =>
          ({ status := 500, body := .ErrorResponse "Failed to generate refresh token" },
            refresh.2)
        | .ok refreshToken =>
          ({ status := 200
             body := .RefreshResponse accessToken refreshToken
               "Token refreshed successfully" }, refresh.2)

end AuthHandler

/-! ## Repositories that misbehave

The service is written against the repository interface, so it can be run on
implementations other than the healthy, single-request GORM one. -/

/-- The GORM repository while the database is unreachable: every lookup by short code
returns the driver error `msg` and executes nothing. -/
def failingRepository (now : Nat) (msg : String) : URLRepository DB :=
  { NewURLRepository now with
    FindByShortCode := fun _ db => (.error (.Driver msg), db) }

/-! ## Sample data -/

/-- A stand-in for `url.Parse` in the examples: it agrees with `url.Parse` on
`https://a.example/path`, on the empty string and on `/relative`, and reports every
other string as unparsable. -/
def urlParseSample (str : String) : Except Error NetURL :=
  if str = "https://a.example/path" then .ok { Scheme := "https", Host := "a.example" }
  else if str = "" then .ok { Scheme := "", Host := "" }
  else if str = "/relative" then .ok { Scheme := "", Host := "" }
  else .error (.Driver "parse: unsupported sample input")

/-- A generator tape for the examples: `aaaaaaaa`, `bbbbbbbb`, `aaaaaaaa`, ... -/
def tapeSample (k : Nat) : Except Error String :=
  if k % 2 = 0 then .ok "aaaaaaaa" else .ok "bbbbbbbb"

/-- A generator tape that always yields `aaaaaaaa`. -/
def tapeStuck (_ : Nat) : Except Error String :=
  .ok "aaaaaaaa"

/-- The empty database. -/
def dbEmpty : DB :=
  { urls := [], log := [] }

/-- The link of the example scenario as stored: created at time 10 by the anonymous
caller `anon-1`. -/
def linkAnon1 : URL :=
  { ID := 1, UserID := none, AnonymousID := some "anon-1", ShortCode := "aaaaaaaa",
    OriginalURL := "https://a.example/path", Clicks := 0, CreatedAt := 10, UpdatedAt := 10 }

/-- A database holding `linkAnon1` only. -/
def dbAnon1 : DB :=
  { urls := [linkAnon1], log := [] }

/-- The link `linkAnon1` as the database holds it after user 7 has claimed `anon-1`
at time 13. -/
def linkClaimed : URL :=
  { ID := 1, UserID := some 7, AnonymousID := some "anon-1", ShortCode := "aaaaaaaa",
    OriginalURL := "https://a.example/path", Clicks := 0, CreatedAt := 10, UpdatedAt := 13 }

/-- The running service on the database holding `linkAnon1`, nothing pending. -/
def sysAnon1 : Sys :=
  { db := dbAnon1, draws := 0, goroutines := [] }

/-- The running service on the database holding `linkClaimed`, nothing pending. -/
def sysClaimed : Sys :=
  { db := { urls := [linkClaimed], log := [] }, draws := 0, goroutines := [] }

/-- A stand-in for `bcrypt.GenerateFromPassword` in the examples: it tags the password
instead of hashing it. -/
def bcryptGenerateSample (password : String) : Except Error String :=
  .ok ("hash-of-" ++ password)

/-- A stand-in for `bcrypt.CompareHashAndPassword` in the examples, matching
`bcryptGenerateSample`. -/
def bcryptCompareSample (hash password : String) : Option Error :=
  if hash = "hash-of-" ++ password then none
  else some (.Driver "crypto/bcrypt: hashedPassword is not the hash of the given password")

/-- The user of the example scenario as stored: `alice`, registered at time 5 with
password `secret1`. -/
def userAlice : User :=
  { ID := 1, Username := "alice", Password := "hash-of-secret1", Email := "alice@x.com",
    CreatedAt := 5, UpdatedAt := 5 }

/-- A clock for the examples: the first three readings are half a second after the
epoch, every later reading is 900.2 seconds after the epoch. -/
def clockHalfSecond (i : Nat) : Nat :=
  if i < 3 then 500000000 else 900200000000

/-- A clock for the examples that always reads half a second after the epoch. -/
def clockStopped (_ : Nat) : Nat :=
  500000000

/-- The access token issued to `alice` (user 7) under the key `k` when every clock
reading is half a second after the epoch: it expires at 900 seconds. -/
def accessTokenAlice : TokenString :=
  .signed 7 "alice" (some 900000000000) (some 0) (some 0) "k"

/-- A database for the listing examples: three links of user 7 created at times 10, 30
and 20, and before them one link of the anonymous caller `anon-1`. -/
def dbListing : DB :=
  { urls :=
      [linkAnon1,
        { ID := 2, UserID := some 7, AnonymousID := none, ShortCode := "bbbbbbbb",
          OriginalURL := "https://b.example/", Clicks := 0, CreatedAt := 10, UpdatedAt := 10 },
        { ID := 3, UserID := some 7, AnonymousID := none, ShortCode := "cccccccc",
          OriginalURL := "https://c.example/", Clicks := 0, CreatedAt := 30, UpdatedAt := 30 },
        { ID := 4, UserID := some 7, AnonymousID := none, ShortCode := "dddddddd",
          OriginalURL := "https://d.example/", Clicks := 0, CreatedAt := 20, UpdatedAt := 20 }]
    log := [] }

theorem firstByID_eq_none_iff (l : List URL) : firstByID l = none ↔ l = [] := by
  cases l with
  | nil => simp [firstByID]
  | cons u rest =>
    simp only [firstByID]
    cases firstByID rest with
    | none => simp
    | some v => by_cases h : v.ID < u.ID <;> simp [h]

theorem firstByID_mem (l : List URL) (r : URL) (h : firstByID l = some r) : r ∈ l := by
  induction l generalizing r with
  | nil => simp [firstByID] at h
  | cons u rest ih =>
    simp only [firstByID] at h
    cases hf : firstByID rest with
    | none =>
      rw [hf] at h
      simp only [Option.some.injEq] at h
      simp [h]
    | some v =>
      rw [hf] at h
      by_cases hlt : v.ID < u.ID
      · simp only [hlt, if_true, Option.some.injEq] at h
        subst h
        exact List.mem_cons_of_mem _ (ih v hf)
      · simp only [hlt, if_false, Option.some.injEq] at h
        simp [h]

theorem FindByShortCode_snd (code : String) (db : DB) :
    (urlRepository.FindByShortCode code db).2 = db.exec (.SelectByShortCode code) := by
  unfold urlRepository.FindByShortCode
  cases firstByID (db.urls.filter (fun r => r.ShortCode == code)) <;> rfl

theorem FindByShortCode_cases (code : String) (db : DB) :
    ((∀ r ∈ db.urls, r.ShortCode ≠ code) ∧
        (urlRepository.FindByShortCode code db).1 = .error .ErrRecordNotFound) ∨
      (∃ r, r ∈ db.urls ∧ r.ShortCode = code ∧
        (urlRepository.FindByShortCode code db).1 = .ok r) := by
  unfold urlRepository.FindByShortCode
  cases hf : firstByID (db.urls.filter (fun r => r.ShortCode == code)) with
  | none =>
    left
    rw [firstByID_eq_none_iff, List.filter_eq_nil_iff] at hf
    refine ⟨fun r hr hc => hf r hr (by simp [hc]), rfl⟩
  | some r =>
    right
    have hm := firstByID_mem _ _ hf
    rw [List.mem_filter] at hm
    exact ⟨r, hm.1, by simpa using hm.2, rfl⟩

/-- A lookup of a code no row carries reports `gorm.ErrRecordNotFound`. -/
theorem FindByShortCode_absent (code : String) (db : DB)
    (h : ∀ r ∈ db.urls, r.ShortCode ≠ code) :
    (urlRepository.FindByShortCode code db).1 = .error .ErrRecordNotFound := by
  rcases FindByShortCode_cases code db with hc | ⟨r, hr, hrc, _⟩
  · exact hc.2
  · exact absurd hrc (h r hr)

/-- A lookup of a code some row carries returns a row with that code. -/
theorem FindByShortCode_present (code : String) (db : DB) (r0 : URL) (h0 : r0 ∈ db.urls)
    (hc0 : r0.ShortCode = code) :
    ∃ r, r ∈ db.urls ∧ r.ShortCode = code ∧
      (urlRepository.FindByShortCode code db).1 = .ok r := by
  rcases FindByShortCode_cases code db with hc | h
  · exact absurd hc0 (hc.1 r0 h0)
  · exact h

/-! ## Lemmas on the code allocator -/

/-- The allocator leaves the rows of the table as they are. -/
theorem generateUniqueCodeLoop_urls (now : Nat) (tape : Nat → Except Error String) :
    ∀ (n k : Nat) (db : DB),
      (urlService.generateUniqueCodeLoop (NewURLRepository now) tape n k db).2.1.urls
        = db.urls := by
  intro n
  induction n with
  | zero => intro k db; rfl
  | succ n ih =>
    intro k db
    rw [urlService.generateUniqueCodeLoop]
    cases tape k with
    | error err => rfl
    | ok code =>
      simp only [NewURLRepository, FindByShortCode_snd]
      split
      · rfl
      · have := ih (k + 1) (db.exec (.SelectByShortCode code))
        simp only [NewURLRepository] at this
        rw [this]; rfl

/-- The allocator calls the generator at least zero and at most `n` times. -/
theorem generateUniqueCodeLoop_draws (now : Nat) (tape : Nat → Except Error String) :
    ∀ (n k : Nat) (db : DB),
      k ≤ (urlService.generateUniqueCodeLoop (NewURLRepository now) tape n k db).2.2 ∧
      (urlService.generateUniqueCodeLoop (NewURLRepository now) tape n k db).2.2 ≤ k + n := by
  intro n
  induction n with
  | zero => intro k db; simp [urlService.generateUniqueCodeLoop]
  | succ n ih =>
    intro k db
    rw [urlService.generateUniqueCodeLoop]
    cases tape k with
    | error err => simp
    | ok code =>
      simp only [NewURLRepository, FindByShortCode_snd]
      split
      · simp
      · have := ih (k + 1) (db.exec (.SelectByShortCode code))
        simp only [NewURLRepository] at this
        omega

/-- The statements the allocator issues are lookups of generated codes, at most one
per generator call. -/
theorem generateUniqueCodeLoop_log (now : Nat) (tape : Nat → Except Error String) :
    ∀ (n k : Nat) (db : DB),
      ∃ codes : List String,
        (urlService.generateUniqueCodeLoop (NewURLRepository now) tape n k db).2.1.log
          = db.log ++ codes.map Stmt.SelectByShortCode ∧
        k + codes.length
          ≤ (urlService.generateUniqueCodeLoop (NewURLRepository now) tape n k db).2.2 ∧
        ∀ c ∈ codes, ∃ i, i < n ∧ tape (k + i) = .ok c := by
  intro n
  induction n with
  | zero => intro k db; exact ⟨[], by simp [urlService.generateUniqueCodeLoop]⟩
  | succ n ih =>
    intro k db
    rw [urlService.generateUniqueCodeLoop]
    cases ht : tape k with
    | error err => exact ⟨[], by simp⟩
    | ok code =>
      simp only [NewURLRepository, FindByShortCode_snd]
      split
      · refine ⟨[code], by simp [DB.exec], by simp, ?_⟩
        intro c hc
        simp only [List.mem_singleton] at hc
        exact ⟨0, by omega, by simpa [hc] using ht⟩
      · obtain ⟨codes, h1, h2, h3⟩ := ih (k + 1) (db.exec (.SelectByShortCode code))
        simp only [NewURLRepository] at h1 h2
        refine ⟨code :: codes, ?_, ?_, ?_⟩
        · rw [h1]; simp [DB.exec]
        · simp only [List.length_cons]; omega
        · intro c hc
          rcases List.mem_cons.mp hc with rfl | hc
          · exact ⟨0, by omega, by simpa using ht⟩
          · obtain ⟨i, hi, hti⟩ := h3 c hc
            exact ⟨i + 1, by omega, by rw [← hti]; congr 1; omega⟩

/-- A code returned by the allocator is the first generated code that no row carries. -/
theorem generateUniqueCodeLoop_ok (now : Nat) (tape : Nat → Except Error String) :
    ∀ (n k : Nat) (db : DB) (c : String),
      (urlService.generateUniqueCodeLoop (NewURLRepository now) tape n k db).1 = .ok c →
      ∃ j, j < n ∧ tape (k + j) = .ok c ∧ (∀ r ∈ db.urls, r.ShortCode ≠ c) ∧
        (urlService.generateUniqueCodeLoop (NewURLRepository now) tape n k db).2.2
          = k + j + 1 ∧
        ∀ i, i < j → ∃ c1, tape (k + i) = .ok c1 ∧ ∃ r ∈ db.urls, r.ShortCode = c1 := by
  intro n
  induction n with
  | zero => intro k db c h; simp [urlService.generateUniqueCodeLoop] at h
  | succ n ih =>
    intro k db c
    rw [urlService.generateUniqueCodeLoop]
    cases ht : tape k with
    | error err => intro h; simp at h
    | ok code =>
      simp only [NewURLRepository, FindByShortCode_snd]
      rcases FindByShortCode_cases code db with ⟨habs, hf⟩ | ⟨r, hr, hrc, hf⟩
      · rw [hf]
        simp only [errOf, errorsIs, beq_self_eq_true, if_true]
        intro h
        have hcc : code = c := by simpa using h
        subst hcc
        exact ⟨0, by omega, by simpa using ht, habs, by simp, by intro i hi; omega⟩
      · rw [hf]
        simp only [errOf, errorsIs]
        intro h
        have h2 : (urlService.generateUniqueCodeLoop (NewURLRepository now) tape n (k + 1)
            (db.exec (.SelectByShortCode code))).1 = .ok c := by
          simpa [NewURLRepository] using h
        obtain ⟨j, hj, htj, habs, hd, hprev⟩ := ih (k + 1) (db.exec (.SelectByShortCode code)) c h2
        refine ⟨j + 1, by omega, ?_, habs, ?_, ?_⟩
        · rw [← htj]; congr 1; omega
        · have : (urlService.generateUniqueCodeLoop (NewURLRepository now) tape n (k + 1)
              (db.exec (.SelectByShortCode code))).2.2 = k + 1 + j + 1 := hd
          simp only [NewURLRepository] at this
          simp [this]; omega
        · intro i hi
          cases i with
          | zero => exact ⟨code, by simpa using ht, r, hr, hrc⟩
          | succ i =>
            obtain ⟨c1, h1, h2⟩ := hprev i (by omega)
            exact ⟨c1, by rw [← h1]; congr 1; omega, h2⟩

/-- When every generated code is carried by some row, the allocator gives up. -/
theorem generateUniqueCodeLoop_exhausted (now : Nat) (tape : Nat → Except Error String) :
    ∀ (n k : Nat) (db : DB),
      (∀ i, i < n → ∃ c1, tape (k + i) = .ok c1 ∧ ∃ r ∈ db.urls, r.ShortCode = c1) →
      (urlService.generateUniqueCodeLoop (NewURLRepository now) tape n k db).1
          = .error (.New "failed to generate unique code") ∧
        (urlService.generateUniqueCodeLoop (NewURLRepository now) tape n k db).2.2 = k + n := by
  intro n
  induction n with
  | zero => intro k db _; simp [urlService.generateUniqueCodeLoop]
  | succ n ih =>
    intro k db h
    rw [urlService.generateUniqueCodeLoop]
    obtain ⟨c0, ht, r0, hr0, hc0⟩ := h 0 (by omega)
    simp only [Nat.add_zero] at ht
    rw [ht]
    simp only [NewURLRepository, FindByShortCode_snd]
    obtain ⟨r, _, _, hf⟩ := FindByShortCode_present c0 db r0 hr0 hc0
    rw [hf]
    simp only [errOf, errorsIs]
    have := ih (k + 1) (db.exec (.SelectByShortCode c0)) (by
      intro i hi
      obtain ⟨c1, h1, h2⟩ := h (i + 1) (by omega)
      exact ⟨c1, by rw [← h1]; congr 1; omega, h2⟩)
    simp only [NewURLRepository] at this
    simp [this]; omega

/-! ## Lemmas on creation and redirection -/

theorem Create_cases (now : Nat) (url : URL) (db : DB) :
    ((urlRepository.Create now url db).1 = .ok (urlRepository.fill now url db) ∧
        (urlRepository.Create now url db).2.urls = db.urls ++ [urlRepository.fill now url db] ∧
        ∀ r ∈ db.urls, r.ShortCode ≠ url.ShortCode) ∨
      ((∃ err, (urlRepository.Create now url db).1 = .error err) ∧
        (urlRepository.Create now url db).2.urls = db.urls) := by
  unfold urlRepository.Create
  by_cases h1 : db.urls.any (fun r => r.ID == (urlRepository.fill now url db).ID) = true
  · right
    simp only [h1, if_true]
    exact ⟨⟨_, rfl⟩, rfl⟩
  · by_cases h2 : db.urls.any
        (fun r => r.ShortCode == (urlRepository.fill now url db).ShortCode) = true
    · right
      simp only [h1, h2, if_true]
      exact ⟨⟨_, rfl⟩, rfl⟩
    · left
      simp only [h1, h2]
      refine ⟨rfl, rfl, ?_⟩
      intro r hr hc
      apply h2
      rw [List.any_eq_true]
      exact ⟨r, hr, by simp [urlRepository.fill, hc]⟩

theorem NewURLRepository_Create (now : Nat) :
    (NewURLRepository now).Create = urlRepository.Create now := rfl

theorem NewURLRepository_FindByShortCode (now : Nat) :
    (NewURLRepository now).FindByShortCode = urlRepository.FindByShortCode := rfl

/-- `CreateShortURL` on a valid URL: allocate, then insert. -/
theorem CreateShortURL_valid {σ : Type} (urlParse : String → Except Error NetURL)
    (repo : URLRepository σ) (tape : Nat → Except Error String) (u : String)
    (userID : Option Nat) (anonymousID : Option String) (k : Nat) (s : σ)
    (hv : isValidURL urlParse u = true) :
    urlService.CreateShortURL urlParse repo tape u userID anonymousID k s =
      match (urlService.generateUniqueCode repo tape k s).1 with
      | .error err =>
        (.error err, (urlService.generateUniqueCode repo tape k s).2.1,
          (urlService.generateUniqueCode repo tape k s).2.2)
      | .ok c =>
        ((repo.Create
            { ID := 0, UserID := userID, AnonymousID := anonymousID, ShortCode := c,
              OriginalURL := u, Clicks := 0, CreatedAt := 0, UpdatedAt := 0 }
            (urlService.generateUniqueCode repo tape k s).2.1).1,
          (repo.Create
            { ID := 0, UserID := userID, AnonymousID := anonymousID, ShortCode := c,
              OriginalURL := u, Clicks := 0, CreatedAt := 0, UpdatedAt := 0 }
            (urlService.generateUniqueCode repo tape k s).2.1).2,
          (urlService.generateUniqueCode repo tape k s).2.2) := by
  unfold urlService.CreateShortURL
  simp only [hv, Bool.not_true, Bool.false_eq_true, if_false]
  cases (urlService.generateUniqueCode repo tape k s).1 with
  | error err => rfl
  | ok c =>
    simp only
    cases (repo.Create
      { ID := 0, UserID := userID, AnonymousID := anonymousID, ShortCode := c,
        OriginalURL := u, Clicks := 0, CreatedAt := 0, UpdatedAt := 0 }
      (urlService.generateUniqueCode repo tape k s).2.1).1 <;> rfl

/-- `CreateShortURL` on an invalid URL. -/
theorem CreateShortURL_not_valid {σ : Type} (urlParse : String → Except Error NetURL)
    (repo : URLRepository σ) (tape : Nat → Except Error String) (u : String)
    (userID : Option Nat) (anonymousID : Option String) (k : Nat) (s : σ)
    (hv : isValidURL urlParse u = false) :
    urlService.CreateShortURL urlParse repo tape u userID anonymousID k s =
      (.error (.New "invalid URL format"), s, k) := by
  unfold urlService.CreateShortURL
  simp [hv]

/-- What a successful `CreateShortURL` on the GORM repository returns and stores. -/
theorem CreateShortURL_ok (urlParse : String → Except Error NetURL)
    (tape : Nat → Except Error String) (now : Nat) (u : String) (userID : Option Nat)
    (anonymousID : Option String) (k : Nat) (db : DB) (link : URL)
    (h : (urlService.CreateShortURL urlParse (NewURLRepository now) tape u userID
      anonymousID k db).1 = .ok link) :
    link.OriginalURL = u ∧ link.UserID = userID ∧ link.AnonymousID = anonymousID ∧
      link.Clicks = 0 ∧
      (urlService.CreateShortURL urlParse (NewURLRepository now) tape u userID
        anonymousID k db).2.1.urls = db.urls ++ [link] ∧
      (∀ r ∈ db.urls, r.ShortCode ≠ link.ShortCode) ∧
      isValidURL urlParse u = true := by
  cases hv : isValidURL urlParse u with
  | false =>
    rw [CreateShortURL_not_valid _ _ _ _ _ _ _ _ hv] at h
    simp at h
  | true =>
    have hurls : (urlService.generateUniqueCode (NewURLRepository now) tape k db).2.1.urls
        = db.urls := generateUniqueCodeLoop_urls now tape _ k db
    rw [CreateShortURL_valid _ _ _ _ _ _ _ _ hv] at h ⊢
    cases hg : (urlService.generateUniqueCode (NewURLRepository now) tape k db).1 with
    | error err => simp [hg] at h
    | ok c =>
      simp only [hg, NewURLRepository_Create] at h ⊢
      rcases Create_cases now
          { ID := 0, UserID := userID, AnonymousID := anonymousID, ShortCode := c,
            OriginalURL := u, Clicks := 0, CreatedAt := 0, UpdatedAt := 0 }
          (urlService.generateUniqueCode (NewURLRepository now) tape k db).2.1
        with ⟨hok, hu, hfresh⟩ | ⟨⟨err, herr⟩, _⟩
      · rw [hok] at h
        simp only [Except.ok.injEq] at h
        subst h
        rw [hurls] at hu hfresh
        exact ⟨rfl, rfl, rfl, rfl, hu, hfresh, trivial⟩
      · rw [herr] at h
        simp at h

/-- A failed `CreateShortURL` on the GORM repository leaves every row as it is. -/
theorem CreateShortURL_error (urlParse : String → Except Error NetURL)
    (tape : Nat → Except Error String) (now : Nat) (u : String) (userID : Option Nat)
    (anonymousID : Option String) (k : Nat) (db : DB) (err : Error)
    (h : (urlService.CreateShortURL urlParse (NewURLRepository now) tape u userID
      anonymousID k db).1 = .error err) :
    (urlService.CreateShortURL urlParse (NewURLRepository now) tape u userID
      anonymousID k db).2.1.urls = db.urls := by
  cases hv : isValidURL urlParse u with
  | false => rw [CreateShortURL_not_valid _ _ _ _ _ _ _ _ hv]
  | true =>
    have hurls : (urlService.generateUniqueCode (NewURLRepository now) tape k db).2.1.urls
        = db.urls := generateUniqueCodeLoop_urls now tape _ k db
    rw [CreateShortURL_valid _ _ _ _ _ _ _ _ hv] at h ⊢
    cases hg : (urlService.generateUniqueCode (NewURLRepository now) tape k db).1 with
    | error e => simp only [hg]; exact hurls
    | ok c =>
      simp only [hg, NewURLRepository_Create] at h ⊢
      rcases Create_cases now
          { ID := 0, UserID := userID, AnonymousID := anonymousID, ShortCode := c,
            OriginalURL := u, Clicks := 0, CreatedAt := 0, UpdatedAt := 0 }
          (urlService.generateUniqueCode (NewURLRepository now) tape k db).2.1
        with ⟨hok, _, _⟩ | ⟨_, hu⟩
      · rw [hok] at h
        simp at h
      · rw [hu, hurls]

/-- `RedirectAndCount` on a code no row carries. -/
theorem RedirectAndCount_absent (now : Nat) (code : String) (db : DB)
    (h : ∀ r ∈ db.urls, r.ShortCode ≠ code) :
    urlService.RedirectAndCount (NewURLRepository now) code db =
      (("", some (.New "short URL not found")), db.exec (.SelectByShortCode code), []) := by
  unfold urlService.RedirectAndCount
  simp only [NewURLRepository_FindByShortCode, FindByShortCode_snd,
    FindByShortCode_absent code db h]
  simp [errorsIs]

/-- `RedirectAndCount` on a code some row carries. -/
theorem RedirectAndCount_present (now : Nat) (code : String) (db : DB) (r0 : URL)
    (h0 : r0 ∈ db.urls) (hc0 : r0.ShortCode = code) :
    ∃ r, r ∈ db.urls ∧ r.ShortCode = code ∧
      urlService.RedirectAndCount (NewURLRepository now) code db =
        ((r.OriginalURL, none), db.exec (.SelectByShortCode code), [code]) := by
  obtain ⟨r, hr, hrc, hf⟩ := FindByShortCode_present code db r0 h0 hc0
  refine ⟨r, hr, hrc, ?_⟩
  unfold urlService.RedirectAndCount
  simp only [NewURLRepository_FindByShortCode, FindByShortCode_snd, hf]

/-! ## Lemmas on claiming and on the running service -/

theorem updateWhere_getElem? (cond : URL → Bool) (set : URL → URL) (rows : List URL)
    (i : Nat) :
    (updateWhere cond set rows)[i]? = (rows[i]?).map (fun r => if cond r then set r else r) := by
  unfold updateWhere
  rw [List.getElem?_map]

/-- The second `UPDATE` of the claim chain matches no row: the first one has just made
`user_id` non-null on every row that satisfied the shared condition. So the whole
chain only sets `user_id` (and stamps `updated_at`) on the matching rows. -/
theorem ClaimAnonymousURLs_urls (now userID : Nat) (anonymousID : String) (db : DB) :
    (urlRepository.ClaimAnonymousURLs now userID anonymousID db).2.urls =
      db.urls.map (fun r =>
        if urlRepository.claimCond anonymousID r then
          { r with UserID := some userID, UpdatedAt := now }
        else r) := by
  unfold urlRepository.ClaimAnonymousURLs updateWhere
  simp only [List.map_map]
  apply List.map_congr_left
  intro r _
  simp only [Function.comp]
  by_cases hc : urlRepository.claimCond anonymousID r = true
  · rw [if_pos hc]
    have h2 : urlRepository.claimCond anonymousID
        { r with UserID := some userID, UpdatedAt := now } = false := by
      simp [urlRepository.claimCond]
    rw [h2]
    simp
  · rw [if_neg hc, if_neg hc]

theorem call_CreateShortURL_db (urlParse : String → Except Error NetURL)
    (tape : Nat → Except Error String) (now : Nat) (u : String) (userID : Option Nat)
    (anonymousID : Option String) (w : Sys) :
    (Sys.call urlParse tape now (.CreateShortURL u userID anonymousID) w).2.db =
      (urlService.CreateShortURL urlParse (NewURLRepository now) tape u userID anonymousID
        w.draws w.db).2.1 := rfl

theorem call_RedirectAndCount_eq (urlParse : String → Except Error NetURL)
    (tape : Nat → Except Error String) (now : Nat) (code : String) (w : Sys) :
    Sys.call urlParse tape now (.RedirectAndCount code) w =
      (.target (urlService.RedirectAndCount (NewURLRepository now) code w.db).1,
        { w with
          db := (urlService.RedirectAndCount (NewURLRepository now) code w.db).2.1
          goroutines := w.goroutines ++
            (urlService.RedirectAndCount (NewURLRepository now) code w.db).2.2 }) := rfl

/-- A `CreateShortURL` call either leaves the rows as they are or appends one row,
with zero clicks and a short code no earlier row carries. -/
theorem call_CreateShortURL_urls (urlParse : String → Except Error NetURL)
    (tape : Nat → Except Error String) (now : Nat) (u : String) (userID : Option Nat)
    (anonymousID : Option String) (w : Sys) :
    (Sys.call urlParse tape now (.CreateShortURL u userID anonymousID) w).2.db.urls
        = w.db.urls ∨
      ∃ link, (Sys.call urlParse tape now (.CreateShortURL u userID anonymousID) w).2.db.urls
          = w.db.urls ++ [link] ∧
        (∀ r ∈ w.db.urls, r.ShortCode ≠ link.ShortCode) ∧ link.Clicks = 0 := by
  rw [call_CreateShortURL_db]
  cases h : (urlService.CreateShortURL urlParse (NewURLRepository now) tape u userID
      anonymousID w.draws w.db).1 with
  | error err => exact Or.inl (CreateShortURL_error _ _ _ _ _ _ _ _ err h)
  | ok link =>
    obtain ⟨_, _, _, hz, hurls, hfresh, _⟩ := CreateShortURL_ok _ _ _ _ _ _ _ _ link h
    exact Or.inr ⟨link, hurls, hfresh, hz⟩

/-- The rows after a service call other than `ClaimAnonymousURLs`: as before, or one
fresh row appended. -/
theorem call_urls_of_not_claim (urlParse : String → Except Error NetURL)
    (tape : Nat → Except Error String) (now : Nat) (op : Op) (w : Sys)
    (hop : ∀ userID anonymousID, op ≠ .ClaimAnonymousURLs userID anonymousID) :
    (Sys.call urlParse tape now op w).2.db.urls = w.db.urls ∨
      ∃ link, (Sys.call urlParse tape now op w).2.db.urls = w.db.urls ++ [link] ∧
        (∀ r ∈ w.db.urls, r.ShortCode ≠ link.ShortCode) ∧ link.Clicks = 0 := by
  cases op with
  | CreateShortURL u userID anonymousID =>
    exact call_CreateShortURL_urls urlParse tape now u userID anonymousID w
  | GetByShortCode code =>
    left
    show (urlRepository.FindByShortCode code w.db).2.urls = w.db.urls
    rw [FindByShortCode_snd]; rfl
  | RedirectAndCount code =>
    left
    rw [call_RedirectAndCount_eq]
    show (urlService.RedirectAndCount (NewURLRepository now) code w.db).2.1.urls = w.db.urls
    unfold urlService.RedirectAndCount
    simp only [NewURLRepository_FindByShortCode, FindByShortCode_snd]
    split
    · split <;> rfl
    · rfl
  | ListURLs => exact Or.inl rfl
  | ListUserURLs userID => exact Or.inl rfl
  | ListAnonymousURLs anonymousID => exact Or.inl rfl
  | ClaimAnonymousURLs userID anonymousID => exact absurd rfl (hop userID anonymousID)

theorem call_ClaimAnonymousURLs_urls (urlParse : String → Except Error NetURL)
    (tape : Nat → Except Error String) (now userID : Nat) (anonymousID : String) (w : Sys) :
    (Sys.call urlParse tape now (.ClaimAnonymousURLs userID anonymousID) w).2.db.urls =
      w.db.urls.map (fun r =>
        if urlRepository.claimCond anonymousID r then
          { r with UserID := some userID, UpdatedAt := now }
        else r) :=
  ClaimAnonymousURLs_urls now userID anonymousID w.db

theorem runGoroutine_urls (j : Nat) (w : Sys) :
    (Sys.runGoroutine j w).db.urls = w.db.urls ∨
      ∃ code, w.goroutines[j]? = some code ∧
        (Sys.runGoroutine j w).db.urls =
          w.db.urls.map (fun r =>
            if r.ShortCode == code then { r with Clicks := r.Clicks + 1 } else r) := by
  unfold Sys.runGoroutine
  cases h : w.goroutines.get? j with
  | none => exact Or.inl rfl
  | some code =>
    right
    exact ⟨code, by simpa using h, rfl⟩

/-- How one event changes a stored row: the row keeps its position, short code,
target and key; a non-null `user_id` stays; clicks do not decrease and change only
when the event is a goroutine run. -/
theorem step_row (urlParse : String → Except Error NetURL)
    (tape : Nat → Except Error String) (e : Event) (w : Sys) (i : Nat) (r : URL)
    (h : w.db.urls[i]? = some r) :
    ∃ r2, (Sys.step urlParse tape e w).2.db.urls[i]? = some r2 ∧
      r2.ID = r.ID ∧ r2.ShortCode = r.ShortCode ∧ r2.OriginalURL = r.OriginalURL ∧
      (∀ uid, r.UserID = some uid → r2.UserID = some uid) ∧
      r.Clicks ≤ r2.Clicks ∧
      (r2.Clicks ≠ r.Clicks → ∃ j, e = .run j) := by
  cases e with
  | call now op =>
    show ∃ r2, (Sys.call urlParse tape now op w).2.db.urls[i]? = some r2 ∧ _
    by_cases hop : ∀ userID anonymousID, op ≠ .ClaimAnonymousURLs userID anonymousID
    · have hsame : (Sys.call urlParse tape now op w).2.db.urls[i]? = some r := by
        rcases call_urls_of_not_claim urlParse tape now op w hop with hu | ⟨link, hu, _, _⟩
        · rw [hu]; exact h
        · rw [hu, List.getElem?_append_left (List.getElem?_eq_some_iff.mp h).1]
          exact h
      exact ⟨r, hsame, rfl, rfl, rfl, fun _ hu => hu, le_refl _, fun hne => absurd rfl hne⟩
    · push_neg at hop
      obtain ⟨userID, anonymousID, rfl⟩ := hop
      rw [call_ClaimAnonymousURLs_urls, List.getElem?_map, h]
      by_cases hc : urlRepository.claimCond anonymousID r = true
      · refine ⟨{ r with UserID := some userID, UpdatedAt := now },
          by rw [Option.map_some', if_pos hc], rfl, rfl, rfl, ?_,
          le_refl _, fun hne => absurd rfl hne⟩
        intro uid hu
        simp [urlRepository.claimCond, hu] at hc
      · refine ⟨r, by rw [Option.map_some', if_neg hc], rfl, rfl, rfl, fun _ hu => hu,
          le_refl _, fun hne => absurd rfl hne⟩
  | run j =>
    show ∃ r2, (Sys.runGoroutine j w).db.urls[i]? = some r2 ∧ _
    rcases runGoroutine_urls j w with hu | ⟨code, _, hu⟩
    · rw [hu]
      exact ⟨r, h, rfl, rfl, rfl, fun _ hu => hu, le_refl _, fun hne => absurd rfl hne⟩
    · rw [hu, List.getElem?_map, h]
      by_cases hc : (r.ShortCode == code) = true
      · refine ⟨{ r with Clicks := r.Clicks + 1 },
          by rw [Option.map_some', if_pos hc], rfl, rfl, rfl,
          fun _ hu => hu, ?_, fun _ => ⟨j, rfl⟩⟩
        show r.Clicks ≤ r.Clicks + 1
        omega
      · exact ⟨r, by rw [Option.map_some', if_neg hc], rfl, rfl, rfl, fun _ hu => hu,
          le_refl _, fun hne => absurd rfl hne⟩

theorem exec_cons (urlParse : String → Except Error NetURL)
    (tape : Nat → Except Error String) (e : Event) (es : List Event) (w : Sys) :
    Sys.exec urlParse tape (e :: es) w =
      ((Sys.step urlParse tape e w).1 ++
          (Sys.exec urlParse tape es (Sys.step urlParse tape e w).2).1,
        (Sys.exec urlParse tape es (Sys.step urlParse tape e w).2).2) := rfl

theorem step_call (urlParse : String → Except Error NetURL)
    (tape : Nat → Except Error String) (now : Nat) (op : Op) (w : Sys) :
    Sys.step urlParse tape (.call now op) w =
      ([(Sys.call urlParse tape now op w).1], (Sys.call urlParse tape now op w).2) := rfl

theorem step_run (urlParse : String → Except Error NetURL)
    (tape : Nat → Except Error String) (j : Nat) (w : Sys) :
    Sys.step urlParse tape (.run j) w = ([], Sys.runGoroutine j w) := rfl

/-- Appending a row whose short code is new keeps the short codes distinct. -/
theorem nodup_codes_append (rows : List URL) (link : URL)
    (hnodup : (rows.map (fun r => r.ShortCode)).Nodup)
    (hfresh : ∀ r ∈ rows, r.ShortCode ≠ link.ShortCode) :
    ((rows ++ [link]).map (fun r => r.ShortCode)).Nodup := by
  rw [List.map_append, List.nodup_append]
  refine ⟨hnodup, by simp, ?_⟩
  intro c hc1 hc2
  simp only [List.map_cons, List.map_nil, List.mem_singleton] at hc2
  obtain ⟨r, hr, hrc⟩ := List.mem_map.mp hc1
  exact hfresh r hr (by rw [hrc, hc2])

/-- Sequential `CreateShortURL` calls keep the short codes distinct and every
stored row as it is. -/
theorem exec_creates (urlParse : String → Except Error NetURL)
    (tape : Nat → Except Error String) :
    ∀ (calls : List (Nat × String × Option Nat × Option String)) (w : Sys),
      (w.db.urls.map (fun r => r.ShortCode)).Nodup →
      ((Sys.exec urlParse tape
          (calls.map (fun c => Event.call c.1 (.CreateShortURL c.2.1 c.2.2.1 c.2.2.2)))
          w).2.db.urls.map (fun r => r.ShortCode)).Nodup ∧
        ∃ added, (Sys.exec urlParse tape
          (calls.map (fun c => Event.call c.1 (.CreateShortURL c.2.1 c.2.2.1 c.2.2.2)))
          w).2.db.urls = w.db.urls ++ added := by
  intro calls
  induction calls with
  | nil => intro w h; exact ⟨h, [], by simp [Sys.exec]⟩
  | cons c cs ih =>
    intro w h
    rw [List.map_cons, exec_cons, step_call]
    simp only
    rcases call_CreateShortURL_urls urlParse tape c.1 c.2.1 c.2.2.1 c.2.2.2 w
      with hu | ⟨link, hu, hfresh, _⟩
    · obtain ⟨h1, added, h2⟩ := ih _ (by rw [hu]; exact h)
      exact ⟨h1, added, by rw [h2, hu]⟩
    · obtain ⟨h1, added, h2⟩ := ih _ (by rw [hu]; exact nodup_codes_append _ _ h hfresh)
      exact ⟨h1, link :: added, by rw [h2, hu]; simp⟩

/-- A stored row keeps its position, key, short code, target and non-null `user_id`
through every sequence of events. -/
theorem exec_row (urlParse : String → Except Error NetURL)
    (tape : Nat → Except Error String) :
    ∀ (evs : List Event) (w : Sys) (i : Nat) (r : URL), w.db.urls[i]? = some r →
      ∃ r2, (Sys.exec urlParse tape evs w).2.db.urls[i]? = some r2 ∧
        r2.ID = r.ID ∧ r2.ShortCode = r.ShortCode ∧ r2.OriginalURL = r.OriginalURL ∧
        (∀ uid, r.UserID = some uid → r2.UserID = some uid) ∧ r.Clicks ≤ r2.Clicks := by
  intro evs
  induction evs with
  | nil => intro w i r h; exact ⟨r, h, rfl, rfl, rfl, fun _ hu => hu, le_refl _⟩
  | cons e es ih =>
    intro w i r h
    rw [exec_cons]
    obtain ⟨r1, h1, hid1, hc1, ho1, hu1, hk1, _⟩ := step_row urlParse tape e w i r h
    obtain ⟨r2, h2, hid2, hc2, ho2, hu2, hk2⟩ := ih _ i r1 h1
    exact ⟨r2, h2, hid2.trans hid1, hc2.trans hc1, ho2.trans ho1,
      fun uid hu => hu2 uid (hu1 uid hu), le_trans hk1 hk2⟩

/-- The second of two claims of the same anonymous ID changes no row. -/
theorem ClaimAnonymousURLs_twice_urls (now1 now2 userID1 userID2 : Nat)
    (anonymousID : String) (db : DB) :
    (urlRepository.ClaimAnonymousURLs now2 userID2 anonymousID
        (urlRepository.ClaimAnonymousURLs now1 userID1 anonymousID db).2).2.urls
      = (urlRepository.ClaimAnonymousURLs now1 userID1 anonymousID db).2.urls := by
  rw [ClaimAnonymousURLs_urls now2, ClaimAnonymousURLs_urls now1, List.map_map]
  apply List.map_congr_left
  intro r _
  simp only [Function.comp]
  by_cases hc : urlRepository.claimCond anonymousID r = true
  · rw [if_pos hc]
    have h2 : urlRepository.claimCond anonymousID
        { r with UserID := some userID1, UpdatedAt := now1 } = false := by
      simp [urlRepository.claimCond]
    rw [h2]
    simp
  · rw [if_neg hc, if_neg hc]

/-- On a table whose last row is the only one with short code `c`, the increment of
`c` adds one click to that row and changes nothing else. -/
theorem IncrementClicks_last (base : List URL) (x : URL) (db : DB)
    (hdb : db.urls = base ++ [x]) (hfresh : ∀ r ∈ base, r.ShortCode ≠ x.ShortCode) :
    (urlRepository.IncrementClicks x.ShortCode db).2.urls
      = base ++ [{ x with Clicks := x.Clicks + 1 }] := by
  unfold urlRepository.IncrementClicks updateWhere
  simp only [hdb, List.map_append, List.map_cons, List.map_nil, beq_self_eq_true, if_true]
  congr 1
  conv_rhs => rw [← List.map_id base]
  apply List.map_congr_left
  intro r hr
  have : (r.ShortCode == x.ShortCode) = false := by simpa using hfresh r hr
  simp [this]

/-- Redirects of one fresh link interleaved with goroutine runs: every redirect
succeeds with the link's target, the table stays `base` plus the link, and the
clicks of the link plus the pending increments count the redirects. -/
theorem exec_redirects (urlParse : String → Except Error NetURL)
    (tape : Nat → Except Error String) (base : List URL) (link : URL)
    (hfresh : ∀ r ∈ base, r.ShortCode ≠ link.ShortCode) :
    ∀ (evs : List Event),
      (∀ e ∈ evs, (∃ t, e = .call t (.RedirectAndCount link.ShortCode)) ∨ ∃ j, e = .run j) →
      ∀ (w : Sys) (m : Nat), w.db.urls = base ++ [{ link with Clicks := (m : Int) }] →
        (∀ c ∈ w.goroutines, c = link.ShortCode) →
        (∀ rep ∈ (Sys.exec urlParse tape evs w).1,
            rep = Reply.target (link.OriginalURL, none)) ∧
          ∃ m2 : Nat,
            (Sys.exec urlParse tape evs w).2.db.urls
              = base ++ [{ link with Clicks := (m2 : Int) }] ∧
            m2 + (Sys.exec urlParse tape evs w).2.goroutines.length
              = m + w.goroutines.length + (Sys.exec urlParse tape evs w).1.length := by
  intro evs
  induction evs with
  | nil =>
    intro _ w m hw _
    exact ⟨by simp [Sys.exec], m, hw, by simp [Sys.exec]⟩
  | cons e es ih =>
    intro hevs w m hw hg
    have hes : ∀ e ∈ es, (∃ t, e = .call t (.RedirectAndCount link.ShortCode)) ∨
        ∃ j, e = .run j := fun e he => hevs e (List.mem_cons_of_mem _ he)
    rw [exec_cons]
    rcases hevs e (List.mem_cons_self _ _) with ⟨t, rfl⟩ | ⟨j, rfl⟩
    · -- a redirect of the link
      rw [step_call, call_RedirectAndCount_eq]
      obtain ⟨r, hr, hrc, hred⟩ := RedirectAndCount_present t link.ShortCode w.db
        { link with Clicks := (m : Int) } (by rw [hw]; simp) rfl
      have hro : r.OriginalURL = link.OriginalURL := by
        rw [hw, List.mem_append] at hr
        rcases hr with hr | hr
        · exact absurd hrc (hfresh r hr)
        · simp only [List.mem_singleton] at hr
          rw [hr]
      rw [hred, hro]
      simp only
      obtain ⟨hreps, m2, hu2, hcount⟩ := ih hes
        { w with
          db := w.db.exec (.SelectByShortCode link.ShortCode)
          goroutines := w.goroutines ++ [link.ShortCode] } m hw
        (by
          intro c hc
          rcases List.mem_append.mp hc with hc | hc
          · exact hg c hc
          · simpa using hc)
      refine ⟨?_, m2, hu2, ?_⟩
      · intro rep hrep
        rcases List.mem_append.mp hrep with h1 | h1
        · simpa using h1
        · exact hreps rep h1
      · simp only [List.length_append, List.length_cons, List.length_nil] at hcount ⊢
        omega
    · -- a goroutine run
      rw [step_run]
      simp only [List.nil_append]
      cases hj : w.goroutines[j]? with
      | none =>
        have hw1 : Sys.runGoroutine j w = w := by
          unfold Sys.runGoroutine
          simp [hj]
        rw [hw1]
        exact ih hes w m hw hg
      | some code =>
        have hcode : code = link.ShortCode := hg code (List.getElem?_mem hj)
        subst hcode
        have hw1 : Sys.runGoroutine j w =
            { w with
              db := (urlRepository.IncrementClicks link.ShortCode w.db).2
              goroutines := w.goroutines.eraseIdx j } := by
          unfold Sys.runGoroutine
          simp [hj]
        rw [hw1]
        have hlt : j < w.goroutines.length := (List.getElem?_eq_some_iff.mp hj).1
        obtain ⟨hreps, m2, hu2, hcount⟩ := ih hes
          { w with
            db := (urlRepository.IncrementClicks link.ShortCode w.db).2
            goroutines := w.goroutines.eraseIdx j } (m + 1)
          (by
            have := IncrementClicks_last base { link with Clicks := (m : Int) } w.db hw hfresh
            simp only at this ⊢
            rw [this]
            push_cast
            rfl)
          (fun c hc => hg c (List.mem_of_mem_eraseIdx hc))
        refine ⟨hreps, m2, hu2, ?_⟩
        simp only [List.length_eraseIdx_of_lt hlt] at hcount
        omega

/-! ## Properties of creation, allocation and redirection -/

/-- C1: create-then-resolve round trip. For every database, owner and string `u`
accepted by `isValidURL`, when `CreateShortURL` succeeds with a link, then
`RedirectAndCount` of that link's short code on the resulting database returns
exactly `u` with a nil error. -/
theorem create_then_redirect_roundtrip (urlParse : String → Except Error NetURL)
    (tape : Nat → Except Error String) (now now2 : Nat) (u : String)
    (userID : Option Nat) (anonymousID : Option String) (k : Nat) (db : DB)
    (link : URL) (db1 : DB) (k1 : Nat)
    (hvalid : isValidURL urlParse u = true)
    (hcreate : urlService.CreateShortURL urlParse (NewURLRepository now) tape u userID
      anonymousID k db = (.ok link, db1, k1)) :
    (urlService.RedirectAndCount (NewURLRepository now2) link.ShortCode db1).1
      = (u, none) := by
  have _ := hvalid
  have h1 : (urlService.CreateShortURL urlParse (NewURLRepository now) tape u userID
      anonymousID k db).1 = .ok link := by rw [hcreate]
  obtain ⟨hu, _, _, _, hurls, hfresh, _⟩ :=
    CreateShortURL_ok urlParse tape now u userID anonymousID k db link h1
  rw [hcreate] at hurls
  simp only at hurls
  obtain ⟨r, hr, hrc, hred⟩ := RedirectAndCount_present now2 link.ShortCode db1 link
    (by rw [hurls]; simp) rfl
  rw [hred]
  rw [hurls, List.mem_append] at hr
  rcases hr with hr | hr
  · exact absurd hrc (hfresh r hr)
  · simp only [List.mem_singleton] at hr
    subst hr
    simp [hu]

/-- C1, on the example scenario: the link created for `https://a.example/path` by the
anonymous caller `anon-1` resolves to that same string. -/
theorem create_then_redirect_roundtrip_witness :
    isValidURL urlParseSample "https://a.example/path" = true ∧
    urlService.CreateShortURL urlParseSample (NewURLRepository 10) tapeSample
        "https://a.example/path" none (some "anon-1") 0 dbEmpty
      = (.ok linkAnon1,
          { urls := [linkAnon1],
            log := [.SelectByShortCode "aaaaaaaa", .InsertURL linkAnon1] }, 1) ∧
    (urlService.RedirectAndCount (NewURLRepository 11) linkAnon1.ShortCode
        { urls := [linkAnon1],
          log := [.SelectByShortCode "aaaaaaaa", .InsertURL linkAnon1] }).1
      = ("https://a.example/path", none) :=
  ⟨by decide, by rfl,
    create_then_redirect_roundtrip urlParseSample tapeSample 10 11
      "https://a.example/path" none (some "anon-1") 0 dbEmpty linkAnon1
      { urls := [linkAnon1], log := [.SelectByShortCode "aaaaaaaa", .InsertURL linkAnon1] }
      1 (by decide) (by rfl)⟩

/-- C2: for every string that `url.Parse` rejects, or parses with an empty scheme or
an empty host, `CreateShortURL` fails with `invalid URL format`, and both the store
(for the GORM repository: rows and statement log, so no lookup and no insert) and
the count of generator calls are exactly as before. This holds for every
implementation of the repository interface. -/
theorem CreateShortURL_invalid_url {σ : Type} (urlParse : String → Except Error NetURL)
    (repo : URLRepository σ) (tape : Nat → Except Error String) (str : String)
    (userID : Option Nat) (anonymousID : Option String) (k : Nat) (s : σ)
    (h : (∃ err, urlParse str = .error err) ∨
      (∃ p, urlParse str = .ok p ∧ (p.Scheme = "" ∨ p.Host = ""))) :
    urlService.CreateShortURL urlParse repo tape str userID anonymousID k s
      = (.error (.New "invalid URL format"), s, k) := by
  apply CreateShortURL_not_valid
  unfold isValidURL
  rcases h with ⟨err, he⟩ | ⟨p, hp, hsh⟩
  · rw [he]
  · rw [hp]
    rcases hsh with h1 | h1 <;> simp [h1]

/-- C2, on examples: the relative path `/relative` is rejected on the database
holding one link, which stays as it is, log included. -/
theorem CreateShortURL_invalid_url_witness :
    ((∃ err, urlParseSample "/relative" = .error err) ∨
      (∃ p, urlParseSample "/relative" = .ok p ∧ (p.Scheme = "" ∨ p.Host = ""))) ∧
    urlService.CreateShortURL urlParseSample (NewURLRepository 10) tapeSample "/relative"
        none (some "anon-1") 0 dbAnon1
      = (.error (.New "invalid URL format"), dbAnon1, 0) :=
  ⟨Or.inr ⟨{ Scheme := "", Host := "" }, by rfl, Or.inl rfl⟩,
    CreateShortURL_invalid_url urlParseSample (NewURLRepository 10) tapeSample "/relative"
      none (some "anon-1") 0 dbAnon1
      (Or.inr ⟨{ Scheme := "", Host := "" }, by rfl, Or.inl rfl⟩)⟩

/-- C4: `generateUniqueCode` on the GORM repository. (1) It calls the generator at
most 5 times, and the statements it issues are lookups by short code of generated
codes, at most one per generator call. (2) A returned code is the first generated
code that no stored row carries: it was generated in attempt `j < 5`, and each
earlier attempt generated a code that some row carries. (3) When all 5 generated
codes are carried by stored rows, the result is the error
`failed to generate unique code`. (4) The rows are unchanged and every statement
issued is a read query. -/
theorem generateUniqueCode_bounded_retry (now : Nat) (tape : Nat → Except Error String)
    (k : Nat) (db : DB) :
    (k ≤ (urlService.generateUniqueCode (NewURLRepository now) tape k db).2.2 ∧
      (urlService.generateUniqueCode (NewURLRepository now) tape k db).2.2 ≤ k + 5 ∧
      ∃ codes : List String,
        (urlService.generateUniqueCode (NewURLRepository now) tape k db).2.1.log
          = db.log ++ codes.map Stmt.SelectByShortCode ∧
        k + codes.length
          ≤ (urlService.generateUniqueCode (NewURLRepository now) tape k db).2.2 ∧
        ∀ c ∈ codes, ∃ i, i < 5 ∧ tape (k + i) = .ok c) ∧
    (∀ c, (urlService.generateUniqueCode (NewURLRepository now) tape k db).1 = .ok c →
      ∃ j, j < 5 ∧ tape (k + j) = .ok c ∧ (∀ r ∈ db.urls, r.ShortCode ≠ c) ∧
        (urlService.generateUniqueCode (NewURLRepository now) tape k db).2.2 = k + j + 1 ∧
        ∀ i, i < j → ∃ c1, tape (k + i) = .ok c1 ∧ ∃ r ∈ db.urls, r.ShortCode = c1) ∧
    ((∀ i, i < 5 → ∃ c1, tape (k + i) = .ok c1 ∧ ∃ r ∈ db.urls, r.ShortCode = c1) →
      (urlService.generateUniqueCode (NewURLRepository now) tape k db).1
        = .error (.New "failed to generate unique code")) ∧
    ((urlService.generateUniqueCode (NewURLRepository now) tape k db).2.1.urls = db.urls ∧
      ∀ q ∈ (urlService.generateUniqueCode (NewURLRepository now) tape k db).2.1.log.drop
        db.log.length, q.isRead = true) := by
  unfold urlService.generateUniqueCode urlService.maxRetries
  refine ⟨⟨(generateUniqueCodeLoop_draws now tape 5 k db).1,
      (generateUniqueCodeLoop_draws now tape 5 k db).2,
      generateUniqueCodeLoop_log now tape 5 k db⟩,
    generateUniqueCodeLoop_ok now tape 5 k db,
    fun h => (generateUniqueCodeLoop_exhausted now tape 5 k db h).1,
    generateUniqueCodeLoop_urls now tape 5 k db, ?_⟩
  obtain ⟨codes, hlog, _, _⟩ := generateUniqueCodeLoop_log now tape 5 k db
  rw [hlog, List.drop_left]
  intro q hq
  obtain ⟨c, _, rfl⟩ := List.mem_map.mp hq
  rfl

/-- C4, on examples: with `aaaaaaaa` in use, the tape `aaaaaaaa, bbbbbbbb, ...` yields
`bbbbbbbb` after two lookups; the tape stuck on `aaaaaaaa` exhausts the 5 attempts. -/
theorem allocator_sample_runs :
    urlService.generateUniqueCode (NewURLRepository 10) tapeSample 0 dbAnon1
      = (.ok "bbbbbbbb",
          { urls := [linkAnon1],
            log := [.SelectByShortCode "aaaaaaaa", .SelectByShortCode "bbbbbbbb"] }, 2) ∧
    urlService.generateUniqueCode (NewURLRepository 10) tapeStuck 0 dbAnon1
      = (.error (.New "failed to generate unique code"),
          { urls := [linkAnon1],
            log := [.SelectByShortCode "aaaaaaaa", .SelectByShortCode "aaaaaaaa",
              .SelectByShortCode "aaaaaaaa", .SelectByShortCode "aaaaaaaa",
              .SelectByShortCode "aaaaaaaa"] }, 5) :=
  ⟨by rfl, by rfl⟩

/-- C8: for every database and every code that no stored row carries,
`RedirectAndCount` returns the empty string with the error `short URL not found`,
spawns no increment goroutine, and leaves every row as it is; the only statement
issued is the lookup. -/
theorem RedirectAndCount_unknown_code (now : Nat) (code : String) (db : DB)
    (h : ∀ r ∈ db.urls, r.ShortCode ≠ code) :
    (urlService.RedirectAndCount (NewURLRepository now) code db).1
        = ("", some (.New "short URL not found")) ∧
      (urlService.RedirectAndCount (NewURLRepository now) code db).2.2 = [] ∧
      (urlService.RedirectAndCount (NewURLRepository now) code db).2.1.urls = db.urls ∧
      (urlService.RedirectAndCount (NewURLRepository now) code db).2.1.log
        = db.log ++ [.SelectByShortCode code] := by
  rw [RedirectAndCount_absent now code db h]
  exact ⟨rfl, rfl, rfl, rfl⟩

/-- C8, on an example: the code `zzzzzzzz` on the database holding `linkAnon1`. -/
theorem RedirectAndCount_unknown_code_witness :
    (∀ r ∈ dbAnon1.urls, r.ShortCode ≠ "zzzzzzzz") ∧
    (urlService.RedirectAndCount (NewURLRepository 11) "zzzzzzzz" dbAnon1).1
        = ("", some (.New "short URL not found")) ∧
      (urlService.RedirectAndCount (NewURLRepository 11) "zzzzzzzz" dbAnon1).2.2 = [] ∧
      (urlService.RedirectAndCount (NewURLRepository 11) "zzzzzzzz" dbAnon1).2.1.urls
        = dbAnon1.urls ∧
      (urlService.RedirectAndCount (NewURLRepository 11) "zzzzzzzz" dbAnon1).2.1.log
        = dbAnon1.log ++ [.SelectByShortCode "zzzzzzzz"] :=
  ⟨by decide, RedirectAndCount_unknown_code 11 "zzzzzzzz" dbAnon1 (by decide)⟩

/-! ## Properties of sequences of operations -/

/-- C3: short-code uniqueness is an invariant of sequential creation. If no two stored
rows share a short code, then after any finite sequence of `CreateShortURL` calls
(each with its own time, URL and owner, succeeding or failing) no two stored rows
share a short code, and every previously stored row is still at its position,
unchanged (in particular its short code). -/
theorem short_codes_unique_under_creates (urlParse : String → Except Error NetURL)
    (tape : Nat → Except Error String)
    (calls : List (Nat × String × Option Nat × Option String)) (w : Sys)
    (hnodup : (w.db.urls.map (fun r => r.ShortCode)).Nodup) :
    ((Sys.exec urlParse tape
        (calls.map (fun c => Event.call c.1 (.CreateShortURL c.2.1 c.2.2.1 c.2.2.2)))
        w).2.db.urls.map (fun r => r.ShortCode)).Nodup ∧
      ∀ (i : Nat) (r : URL), w.db.urls[i]? = some r →
        (Sys.exec urlParse tape
          (calls.map (fun c => Event.call c.1 (.CreateShortURL c.2.1 c.2.2.1 c.2.2.2)))
          w).2.db.urls[i]? = some r := by
  obtain ⟨h1, added, h2⟩ := exec_creates urlParse tape calls w hnodup
  refine ⟨h1, ?_⟩
  intro i r hr
  rw [h2, List.getElem?_append_left (List.getElem?_eq_some_iff.mp hr).1]
  exact hr

/-- C3, on an example: two creations on the database holding `linkAnon1`; the first
succeeds with `bbbbbbbb`, the second finds both tape codes in use and fails. -/
theorem short_codes_unique_under_creates_witness :
    (sysAnon1.db.urls.map (fun r => r.ShortCode)).Nodup ∧
    (((Sys.exec urlParseSample tapeSample
        ([(11, "https://a.example/path", none, some "anon-2"),
          (12, "https://a.example/path", some 7, none)].map
          (fun c => Event.call c.1 (.CreateShortURL c.2.1 c.2.2.1 c.2.2.2)))
        sysAnon1).2.db.urls.map (fun r => r.ShortCode)).Nodup ∧
      ∀ (i : Nat) (r : URL), sysAnon1.db.urls[i]? = some r →
        (Sys.exec urlParseSample tapeSample
          ([(11, "https://a.example/path", none, some "anon-2"),
            (12, "https://a.example/path", some 7, none)].map
            (fun c => Event.call c.1 (.CreateShortURL c.2.1 c.2.2.1 c.2.2.2)))
          sysAnon1).2.db.urls[i]? = some r) :=
  ⟨by decide,
    short_codes_unique_under_creates urlParseSample tapeSample
      [(11, "https://a.example/path", none, some "anon-2"),
        (12, "https://a.example/path", some 7, none)] sysAnon1 (by decide)⟩

/-- C7: ownership by a user is irreversible. A stored row whose `user_id` is non-null
keeps that same `user_id` (and its position, key and short code) through every
sequence of service calls (`CreateShortURL`, `GetByShortCode`, `RedirectAndCount`,
the three list operations, `ClaimAnonymousURLs` with any arguments) and runs of the
click-increment goroutines. -/
theorem user_ownership_irreversible (urlParse : String → Except Error NetURL)
    (tape : Nat → Except Error String) (evs : List Event) (w : Sys) (i : Nat) (r : URL)
    (uid : Nat) (h : w.db.urls[i]? = some r) (hu : r.UserID = some uid) :
    ∃ r2, (Sys.exec urlParse tape evs w).2.db.urls[i]? = some r2 ∧
      r2.UserID = some uid ∧ r2.ID = r.ID ∧ r2.ShortCode = r.ShortCode := by
  obtain ⟨r2, h2, hid, hc, _, huid, _⟩ := exec_row urlParse tape evs w i r h
  exact ⟨r2, h2, huid uid hu, hid, hc⟩

/-- C7, on an example: the link owned by user 7 stays with user 7 when user 8 claims
its anonymous ID, another link is created, and the link is redirected to. -/
theorem user_ownership_irreversible_witness :
    sysClaimed.db.urls[0]? = some linkClaimed ∧ linkClaimed.UserID = some 7 ∧
    ∃ r2, (Sys.exec urlParseSample tapeSample
        [.call 20 (.ClaimAnonymousURLs 8 "anon-1"),
          .call 21 (.CreateShortURL "https://a.example/path" (some 8) none),
          .call 22 (.RedirectAndCount "aaaaaaaa"), .run 0] sysClaimed).2.db.urls[0]?
          = some r2 ∧
      r2.UserID = some 7 ∧ r2.ID = linkClaimed.ID ∧ r2.ShortCode = linkClaimed.ShortCode :=
  ⟨by rfl, by rfl,
    user_ownership_irreversible urlParseSample tapeSample
      [.call 20 (.ClaimAnonymousURLs 8 "anon-1"),
        .call 21 (.CreateShortURL "https://a.example/path" (some 8) none),
        .call 22 (.RedirectAndCount "aaaaaaaa"), .run 0] sysClaimed 0 linkClaimed 7
      (by rfl) (by rfl)⟩

/-- C9: click counting is exact. Take a link just created by `CreateShortURL` (its
clicks are 0) and any schedule that interleaves `RedirectAndCount` calls for its
short code with runs of pending increment goroutines. Every such call succeeds with
the link's URL, and once no goroutine is pending the table is the table before the
creation plus the link with `clicks` equal to the number of calls; no other row and
no other field has changed. Moreover each goroutine run adds exactly 1 to the
clicks of the rows with its code and leaves every other row, and every other field,
as it is. -/
theorem clicks_count_redirects (urlParse : String → Except Error NetURL)
    (tape : Nat → Except Error String) (now : Nat) (u : String) (userID : Option Nat)
    (anonymousID : Option String) (k : Nat) (db : DB) (link : URL) (db1 : DB) (k1 : Nat)
    (evs : List Event)
    (hcreate : urlService.CreateShortURL urlParse (NewURLRepository now) tape u userID
      anonymousID k db = (.ok link, db1, k1))
    (hevs : ∀ e ∈ evs,
      (∃ t, e = .call t (.RedirectAndCount link.ShortCode)) ∨ ∃ j, e = .run j)
    (hdone : (Sys.exec urlParse tape evs
      { db := db1, draws := k1, goroutines := [] }).2.goroutines = []) :
    link.Clicks = 0 ∧
    (∀ rep ∈ (Sys.exec urlParse tape evs { db := db1, draws := k1, goroutines := [] }).1,
      rep = Reply.target (u, none)) ∧
    (Sys.exec urlParse tape evs { db := db1, draws := k1, goroutines := [] }).2.db.urls
      = db.urls ++ [{ link with
          Clicks := ((Sys.exec urlParse tape evs
            { db := db1, draws := k1, goroutines := [] }).1.length : Int) }] ∧
    (∀ (w : Sys) (j : Nat) (code : String), w.goroutines[j]? = some code →
      (Sys.runGoroutine j w).db.urls.length = w.db.urls.length ∧
      ∀ (i : Nat) (r : URL), w.db.urls[i]? = some r →
        (Sys.runGoroutine j w).db.urls[i]? =
          some (if r.ShortCode = code then { r with Clicks := r.Clicks + 1 } else r)) := by
  have h1 : (urlService.CreateShortURL urlParse (NewURLRepository now) tape u userID
      anonymousID k db).1 = .ok link := by rw [hcreate]
  obtain ⟨hu, _, _, hz, hurls, hfresh, _⟩ :=
    CreateShortURL_ok urlParse tape now u userID anonymousID k db link h1
  rw [hcreate] at hurls
  simp only at hurls
  have hlink : link = { link with Clicks := ((0 : Nat) : Int) } := by
    cases link
    simp only at hz
    simp only [hz, Nat.cast_zero]
  obtain ⟨hreps, m2, hu2, hcount⟩ := exec_redirects urlParse tape db.urls link hfresh evs hevs
    { db := db1, draws := k1, goroutines := [] } 0 (by rw [hurls]; rw [← hlink]) (by simp)
  rw [hdone] at hcount
  simp only [List.length_nil, Nat.add_zero, Nat.zero_add] at hcount
  refine ⟨hz, ?_, ?_, ?_⟩
  · intro rep hrep
    rw [hreps rep hrep, hu]
  · rw [hu2, hcount]
  · intro w j code hj
    have hrun : Sys.runGoroutine j w =
        { w with
          db := (urlRepository.IncrementClicks code w.db).2
          goroutines := w.goroutines.eraseIdx j } := by
      unfold Sys.runGoroutine
      simp [hj]
    rw [hrun]
    refine ⟨by simp [urlRepository.IncrementClicks, updateWhere], ?_⟩
    intro i r hr
    show (updateWhere _ _ w.db.urls)[i]? = _
    rw [updateWhere_getElem?, hr]
    by_cases hc : r.ShortCode = code <;> simp [hc]

/-- C9, on an example: the link created on the empty database, two redirects, then
the two increments run in reverse order of dispatch. -/
theorem clicks_count_redirects_witness :
    urlService.CreateShortURL urlParseSample (NewURLRepository 10) tapeSample
        "https://a.example/path" none (some "anon-1") 0 dbEmpty
      = (.ok linkAnon1,
          { urls := [linkAnon1],
            log := [.SelectByShortCode "aaaaaaaa", .InsertURL linkAnon1] }, 1) ∧
    (Sys.exec urlParseSample tapeSample
        [.call 11 (.RedirectAndCount "aaaaaaaa"), .call 12 (.RedirectAndCount "aaaaaaaa"),
          .run 1, .run 0]
        { db := { urls := [linkAnon1],
                  log := [.SelectByShortCode "aaaaaaaa", .InsertURL linkAnon1] },
          draws := 1, goroutines := [] }).2.db.urls
      = [{ linkAnon1 with Clicks := 2 }] :=
  ⟨by rfl,
    (clicks_count_redirects urlParseSample tapeSample 10 "https://a.example/path" none
      (some "anon-1") 0 dbEmpty linkAnon1
      { urls := [linkAnon1], log := [.SelectByShortCode "aaaaaaaa", .InsertURL linkAnon1] }
      1
      [.call 11 (.RedirectAndCount "aaaaaaaa"), .call 12 (.RedirectAndCount "aaaaaaaa"),
        .run 1, .run 0]
      (by rfl)
      (by
        intro e he
        simp only [List.mem_cons, List.mem_singleton, List.not_mem_nil, or_false] at he
        rcases he with rfl | rfl | rfl | rfl
        · exact Or.inl ⟨11, rfl⟩
        · exact Or.inl ⟨12, rfl⟩
        · exact Or.inr ⟨1, rfl⟩
        · exact Or.inr ⟨0, rfl⟩)
      (by rfl)).2.2.1⟩

/-- C10: `clicks` starts at 0 and never decreases. (1) A link returned by a successful
`CreateShortURL` has `clicks = 0` and is the row stored. (2) For every stored row and
every event (a call of any service method, or the run of a pending goroutine), the
row is still stored at its position with clicks at least as before; and when its
clicks differ, the event is the run of a pending increment goroutine for this
row's short code, so in particular creation and claiming leave clicks unchanged.
(3) A service call adds a goroutine only when it is a `RedirectAndCount` that
succeeds, and then exactly one, for the code redirected. -/
theorem clicks_monotone (urlParse : String → Except Error NetURL)
    (tape : Nat → Except Error String) :
    (∀ (now : Nat) (u : String) (userID : Option Nat) (anonymousID : Option String)
      (k : Nat) (db : DB) (link : URL),
      (urlService.CreateShortURL urlParse (NewURLRepository now) tape u userID anonymousID
        k db).1 = .ok link →
      link.Clicks = 0 ∧
        (urlService.CreateShortURL urlParse (NewURLRepository now) tape u userID
          anonymousID k db).2.1.urls = db.urls ++ [link]) ∧
    (∀ (e : Event) (w : Sys) (i : Nat) (r : URL), w.db.urls[i]? = some r →
      ∃ r2, (Sys.step urlParse tape e w).2.db.urls[i]? = some r2 ∧
        r.Clicks ≤ r2.Clicks ∧
        (r2.Clicks ≠ r.Clicks →
          ∃ j, e = .run j ∧ w.goroutines[j]? = some r.ShortCode)) ∧
    (∀ (now : Nat) (op : Op) (w : Sys),
      (Sys.call urlParse tape now op w).2.goroutines ≠ w.goroutines →
      ∃ code target, op = .RedirectAndCount code ∧
        (Sys.call urlParse tape now op w).1 = .target (target, none) ∧
        (Sys.call urlParse tape now op w).2.goroutines = w.goroutines ++ [code]) := by
  refine ⟨?_, ?_, ?_⟩
  · intro now u userID anonymousID k db link h
    obtain ⟨_, _, _, hz, hurls, _, _⟩ :=
      CreateShortURL_ok urlParse tape now u userID anonymousID k db link h
    exact ⟨hz, hurls⟩
  · intro e w i r h
    obtain ⟨r2, h2, _, _, _, _, hle, hne⟩ := step_row urlParse tape e w i r h
    refine ⟨r2, h2, hle, ?_⟩
    intro hch
    obtain ⟨j, rfl⟩ := hne hch
    refine ⟨j, rfl, ?_⟩
    rw [step_run] at h2
    simp only at h2
    rcases runGoroutine_urls j w with hu | ⟨code, hj, hu⟩
    · rw [hu, h] at h2
      simp only [Option.some.injEq] at h2
      exact absurd (by rw [h2]) hch
    · rw [hu, List.getElem?_map, h] at h2
      by_cases hc : (r.ShortCode == code) = true
      · have : r.ShortCode = code := by simpa using hc
        rw [this]; exact hj
      · rw [Option.map_some', if_neg hc] at h2
        simp only [Option.some.injEq] at h2
        exact absurd (by rw [h2]) hch
  · intro now op w hne
    cases op with
    | CreateShortURL u userID anonymousID => exact absurd rfl hne
    | GetByShortCode code => exact absurd rfl hne
    | ListURLs => exact absurd rfl hne
    | ListUserURLs userID => exact absurd rfl hne
    | ListAnonymousURLs anonymousID => exact absurd rfl hne
    | ClaimAnonymousURLs userID anonymousID => exact absurd rfl hne
    | RedirectAndCount code =>
      rw [call_RedirectAndCount_eq] at hne ⊢
      simp only at hne ⊢
      rcases FindByShortCode_cases code w.db with ⟨habs, _⟩ | ⟨r0, hr0, hrc0, _⟩
      · rw [RedirectAndCount_absent now code w.db habs] at hne
        simp at hne
      · obtain ⟨r, _, _, hred⟩ := RedirectAndCount_present now code w.db r0 hr0 hrc0
        rw [hred]
        exact ⟨code, r.OriginalURL, rfl, rfl, rfl⟩

/-! ## Properties of claiming -/

/-- C5, what the code does: `ClaimAnonymousURLs` sets `user_id` (and stamps
`updated_at`) on exactly the rows with the given `anonymous_id` and a null
`user_id`, and leaves every other row and every other field as it is; in particular
`anonymous_id` is not cleared on any row. On the example scenario, the link created
by `anon-1` and claimed by user 7 is listed for user 7 with `anonymous_id` still
`anon-1`. -/
theorem ClaimAnonymousURLs_keeps_anonymous_id :
    (∀ (now userID : Nat) (anonymousID : String) (db : DB) (i : Nat) (r : URL),
      db.urls[i]? = some r →
      (urlService.ClaimAnonymousURLs (NewURLRepository now) userID anonymousID db).2.urls[i]?
        = some (if r.AnonymousID = some anonymousID ∧ r.UserID = none then
            { r with UserID := some userID, UpdatedAt := now }
          else r)) ∧
    (urlService.ClaimAnonymousURLs (NewURLRepository 13) 7 "anon-1" dbAnon1).2.urls
      = [linkClaimed] ∧
    linkClaimed.AnonymousID = some "anon-1" ∧
    (urlService.ListUserURLs (NewURLRepository 14) 7
      (urlService.ClaimAnonymousURLs (NewURLRepository 13) 7 "anon-1" dbAnon1).2).1
      = .ok [linkClaimed] := by
  refine ⟨?_, by rfl, by rfl, by rfl⟩
  intro now userID anonymousID db i r h
  show (urlRepository.ClaimAnonymousURLs now userID anonymousID db).2.urls[i]? = _
  rw [ClaimAnonymousURLs_urls, List.getElem?_map, h]
  simp [urlRepository.claimCond]

/-- C6: claiming is idempotent. For every database, the first `ClaimAnonymousURLs`
returns no error, and a second call for the same anonymous ID right after it, for
the same or a different user and at any time, returns no error and leaves every row
exactly as the first call left it. -/
theorem ClaimAnonymousURLs_idempotent (now1 now2 userID1 userID2 : Nat)
    (anonymousID : String) (db : DB) :
    (urlService.ClaimAnonymousURLs (NewURLRepository now1) userID1 anonymousID db).1
        = .ok () ∧
      (urlService.ClaimAnonymousURLs (NewURLRepository now2) userID2 anonymousID
        (urlService.ClaimAnonymousURLs (NewURLRepository now1) userID1 anonymousID db).2).1
        = .ok () ∧
      (urlService.ClaimAnonymousURLs (NewURLRepository now2) userID2 anonymousID
        (urlService.ClaimAnonymousURLs (NewURLRepository now1) userID1 anonymousID db).2).2.urls
        = (urlService.ClaimAnonymousURLs (NewURLRepository now1) userID1 anonymousID
            db).2.urls :=
  ⟨rfl, rfl, ClaimAnonymousURLs_twice_urls now1 now2 userID1 userID2 anonymousID db⟩

/-- C6, on the example scenario: user 8 claims `anon-1` after user 7 did; the link
stays as user 7 left it. -/
theorem second_claim_sample_run :
    (urlService.ClaimAnonymousURLs (NewURLRepository 20) 8 "anon-1"
      (urlService.ClaimAnonymousURLs (NewURLRepository 13) 7 "anon-1" dbAnon1).2).2.urls
      = [linkClaimed] := by
  rfl

/-! ## Properties of the URL handler -/

theorem generateAnonymousID_eq :
    generateAnonymousID = "anon-abcdefghijklmnopqrstuvwxyz012345" := by
  decide

theorem generateAnonymousID_ne_empty : generateAnonymousID ≠ "" := by
  decide

/-- The owner pair passed by the handler has exactly one component set. -/
theorem owner_cases (ctxUserID : Option Nat) (req : CreateURLRequest) :
    (∀ uid, ctxUserID = some uid → URLHandler.owner ctxUserID req = (some uid, none)) ∧
    (ctxUserID = none →
      ∃ a, URLHandler.owner ctxUserID req = (none, some a) ∧ a ≠ "" ∧
        (∀ a0, req.AnonymousID = some a0 → a0 ≠ "" → a = a0) ∧
        (req.AnonymousID = none ∨ req.AnonymousID = some "" → a = generateAnonymousID)) := by
  refine ⟨?_, ?_⟩
  · intro uid h
    subst h
    rfl
  · intro h
    subst h
    unfold URLHandler.owner
    cases hreq : req.AnonymousID with
    | none =>
      exact ⟨generateAnonymousID, rfl, generateAnonymousID_ne_empty,
        fun a0 h0 => by simp at h0, fun _ => rfl⟩
    | some a1 =>
      by_cases ha : a1 = ""
      · subst ha
        refine ⟨generateAnonymousID, by simp, generateAnonymousID_ne_empty, ?_, fun _ => rfl⟩
        intro a0 h0 hne
        simp only [Option.some.injEq] at h0
        exact absurd h0.symm hne
      · refine ⟨a1, by simp [ha], ha, ?_, ?_⟩
        · intro a0 h0 _
          simpa using h0
        · intro h0
          rcases h0 with h0 | h0
          · simp at h0
          · simp only [Option.some.injEq] at h0
            exact absurd h0 ha

/-- C11, as amended. (1) For every request, the `CreateShortURL` handler on the GORM
repository either persists nothing and answers 400, or answers 201 and appends exactly
one link; that link has `user_id` set and `anonymous_id` null when the request
carries an authenticated user, and otherwise `user_id` null and `anonymous_id`
non-null and non-empty: the client-supplied value when that is non-empty, else the
generated one. (2) `CreateShortURL` of the service persists `user_id` and
`anonymous_id` exactly as its caller passes them. -/
theorem handler_persists_one_owner (urlParse : String → Except Error NetURL)
    (tape : Nat → Except Error String) (now : Nat) (body : Option CreateURLRequest)
    (ctxUserID : Option Nat) (k : Nat) (db : DB) :
    (((URLHandler.CreateShortURL urlParse (NewURLRepository now) tape body ctxUserID
          k db).2.1.urls = db.urls ∧
        (URLHandler.CreateShortURL urlParse (NewURLRepository now) tape body ctxUserID
          k db).1.status = 400) ∨
      ∃ req link, URLHandler.bindCreateURLRequest body = some req ∧
        (URLHandler.CreateShortURL urlParse (NewURLRepository now) tape body ctxUserID
          k db).2.1.urls = db.urls ++ [link] ∧
        (URLHandler.CreateShortURL urlParse (NewURLRepository now) tape body ctxUserID
          k db).1.status = 201 ∧
        (∀ uid, ctxUserID = some uid → link.UserID = some uid ∧ link.AnonymousID = none) ∧
        (ctxUserID = none →
          link.UserID = none ∧
          ∃ a, link.AnonymousID = some a ∧ a ≠ "" ∧
            (∀ a0, req.AnonymousID = some a0 → a0 ≠ "" → a = a0) ∧
            (req.AnonymousID = none ∨ req.AnonymousID = some "" →
              a = generateAnonymousID))) ∧
    (∀ (u : String) (userID : Option Nat) (anonymousID : Option String) (link : URL),
      (urlService.CreateShortURL urlParse (NewURLRepository now) tape u userID anonymousID
        k db).1 = .ok link →
      link.UserID = userID ∧ link.AnonymousID = anonymousID ∧
        (urlService.CreateShortURL urlParse (NewURLRepository now) tape u userID
          anonymousID k db).2.1.urls = db.urls ++ [link]) := by
  refine ⟨?_, ?_⟩
  · unfold URLHandler.CreateShortURL
    cases hb : URLHandler.bindCreateURLRequest body with
    | none => exact Or.inl ⟨rfl, rfl⟩
    | some req =>
      simp only
      cases hs : (urlService.CreateShortURL urlParse (NewURLRepository now) tape req.URL
          (URLHandler.owner ctxUserID req).1 (URLHandler.owner ctxUserID req).2 k db).1 with
      | error err =>
        exact Or.inl ⟨CreateShortURL_error _ _ _ _ _ _ _ _ err hs, rfl⟩
      | ok link =>
        obtain ⟨_, huid, haid, _, hurls, _, _⟩ := CreateShortURL_ok _ _ _ _ _ _ _ _ link hs
        refine Or.inr ⟨req, link, rfl, hurls, rfl, ?_, ?_⟩
        · intro uid hctx
          rw [(owner_cases ctxUserID req).1 uid hctx] at huid haid
          exact ⟨huid, haid⟩
        · intro hctx
          obtain ⟨a, ho, hne, h1, h2⟩ := (owner_cases ctxUserID req).2 hctx
          rw [ho] at huid haid
          exact ⟨huid, a, haid, hne, h1, h2⟩
  · intro u userID anonymousID link h
    obtain ⟨_, huid, haid, _, hurls, _, _⟩ := CreateShortURL_ok _ _ _ _ _ _ _ _ link h
    exact ⟨huid, haid, hurls⟩

/-- C11, as stated, fails on the service: called with no user and no anonymous ID it
persists a link with neither set, and called with both it persists a link with both
set. -/
theorem service_persists_any_owner_pair :
    ((urlService.CreateShortURL urlParseSample (NewURLRepository 10) tapeSample
        "https://a.example/path" none none 0 dbEmpty).1
        = .ok { linkAnon1 with UserID := none, AnonymousID := none } ∧
      (urlService.CreateShortURL urlParseSample (NewURLRepository 10) tapeSample
        "https://a.example/path" none none 0 dbEmpty).2.1.urls
        = [{ linkAnon1 with UserID := none, AnonymousID := none }]) ∧
    ((urlService.CreateShortURL urlParseSample (NewURLRepository 10) tapeSample
        "https://a.example/path" (some 7) (some "anon-1") 0 dbEmpty).1
        = .ok { linkAnon1 with UserID := some 7, AnonymousID := some "anon-1" } ∧
      (urlService.CreateShortURL urlParseSample (NewURLRepository 10) tapeSample
        "https://a.example/path" (some 7) (some "anon-1") 0 dbEmpty).2.1.urls
        = [{ linkAnon1 with UserID := some 7, AnonymousID := some "anon-1" }]) :=
  ⟨⟨by rfl, by rfl⟩, ⟨by rfl, by rfl⟩⟩

/-- C12, what the code does: `generateAnonymousID` is the constant
`anon-abcdefghijklmnopqrstuvwxyz012345`, because `generateRandomString` fills position
`i` with `charset[i % 36]` and reads no random source. Two anonymous requests without
an `anonymous_id`, served at different times on different databases, are both given
that same ID, in the response and in the persisted link. -/
theorem generated_anonymous_ids_collide :
    generateAnonymousID = "anon-abcdefghijklmnopqrstuvwxyz012345" ∧
    (URLHandler.CreateShortURL urlParseSample (NewURLRepository 10) tapeSample
        (some { URL := "https://a.example/path", AnonymousID := none }) none 0 dbEmpty).1
      = { status := 201
          body := .CreateURLResponse "aaaaaaaa" "http://localhost:8080/aaaaaaaa"
            "https://a.example/path" "anon-abcdefghijklmnopqrstuvwxyz012345" } ∧
    (URLHandler.CreateShortURL urlParseSample (NewURLRepository 99) tapeSample
        (some { URL := "https://a.example/path", AnonymousID := some "" }) none 0 dbAnon1).1
      = { status := 201
          body := .CreateURLResponse "bbbbbbbb" "http://localhost:8080/bbbbbbbb"
            "https://a.example/path" "anon-abcdefghijklmnopqrstuvwxyz012345" } ∧
    ((URLHandler.CreateShortURL urlParseSample (NewURLRepository 99) tapeSample
        (some { URL := "https://a.example/path", AnonymousID := some "" }) none 0
        dbAnon1).2.1.urls.map (fun r => r.AnonymousID))
      = [some "anon-1", some "anon-abcdefghijklmnopqrstuvwxyz012345"] :=
  ⟨by decide, by rfl, by rfl, by rfl⟩

/-! ## Properties of the user service -/

/-- C13: for every implementation of the user repository and every store in which the
lookup by username `n` finds a user (and, being a read, leaves the store as it is),
`Register n email password` fails with `username already exists` and the store is
exactly as before: no user is created and no record is changed, whatever the email
and password. -/
theorem Register_duplicate_username {σ : Type} (repo : UserRepository σ)
    (bcryptGenerate : String → Except Error String) (n email password : String) (s : σ)
    (existing : User) (hfound : repo.FindByUsername n s = (.ok existing, s)) :
    userService.Register repo bcryptGenerate n email password s
      = (.error (.New "username already exists"), s) := by
  unfold userService.Register
  simp [hfound, errOf]

/-- C13, on the example scenario: `alice` is registered, and a second registration of
`alice` with another email and password fails and leaves the store as it is. -/
theorem Register_duplicate_username_witness :
    (userRepositoryModel 9).FindByUsername "alice" [userAlice] = (.ok userAlice, [userAlice]) ∧
    userService.Register (userRepositoryModel 9) bcryptGenerateSample "alice" "other@x.com"
        "secret2" [userAlice]
      = (.error (.New "username already exists"), [userAlice]) :=
  ⟨by rfl,
    Register_duplicate_username (userRepositoryModel 9) bcryptGenerateSample "alice"
      "other@x.com" "secret2" [userAlice] userAlice (by rfl)⟩

/-- C14: `Login` fails with the same error in both failure cases, for every
implementation of the user repository and of the hash comparison. (1) When the lookup
reports `gorm.ErrRecordNotFound`, the result is the error `invalid credentials` and no
user. (2) When the lookup finds a user whose stored hash does not verify against the
password, the result is that same error and no user. (3) `Login` returns a user exactly
when the lookup returns that user and the hash verifies. (4) `ValidateCredentials` is
`Login`. -/
theorem Login_invalid_credentials {σ : Type} (repo : UserRepository σ)
    (bcryptCompare : String → String → Option Error) (n password : String) (s : σ) :
    ((repo.FindByUsername n s).1 = .error .ErrRecordNotFound →
      userService.Login repo bcryptCompare n password s
        = (.error (.New "invalid credentials"), (repo.FindByUsername n s).2)) ∧
    (∀ user err, (repo.FindByUsername n s).1 = .ok user →
      bcryptCompare user.Password password = some err →
      userService.Login repo bcryptCompare n password s
        = (.error (.New "invalid credentials"), (repo.FindByUsername n s).2)) ∧
    (∀ user, (userService.Login repo bcryptCompare n password s).1 = .ok user ↔
      ((repo.FindByUsername n s).1 = .ok user ∧
        bcryptCompare user.Password password = none)) ∧
    userService.ValidateCredentials repo bcryptCompare n password s
      = userService.Login repo bcryptCompare n password s := by
  refine ⟨?_, ?_, ?_, rfl⟩
  · intro h
    unfold userService.Login
    simp [h, errorsIs]
  · intro user err h hc
    unfold userService.Login
    simp [h, hc]
  · intro user
    simp only [userService.Login]
    cases hf : (repo.FindByUsername n s).1 with
    | error e =>
      by_cases he : errorsIs (some e) Error.ErrRecordNotFound = true <;> simp [he]
    | ok u =>
      cases hc : bcryptCompare u.Password password with
      | none =>
        simp only [hc, Except.ok.injEq]
        constructor
        · intro h; subst h; exact ⟨rfl, hc⟩
        · intro h; exact h.1
      | some e =>
        simp only [hc, Except.ok.injEq]
        constructor
        · intro h; simp at h
        · intro h
          have h1 := h.1
          subst h1
          rw [hc] at h
          simp at h

/-- C14, on the example scenario: an unknown username and a wrong password for `alice`
give the same result; the right password returns `alice`. -/
theorem Login_sample_runs :
    userService.Login (userRepositoryModel 9) bcryptCompareSample "bob" "secret1" [userAlice]
      = (.error (.New "invalid credentials"), [userAlice]) ∧
    userService.Login (userRepositoryModel 9) bcryptCompareSample "alice" "wrong" [userAlice]
      = (.error (.New "invalid credentials"), [userAlice]) ∧
    userService.Login (userRepositoryModel 9) bcryptCompareSample "alice" "secret1" [userAlice]
      = (.ok userAlice, [userAlice]) :=
  ⟨by rfl, by rfl, by rfl⟩

/-! ## Properties of the token issuer -/

theorem NewNumericDate_le (t : Nat) : NewNumericDate t ≤ t := by
  unfold NewNumericDate
  omega

theorem NewNumericDate_mono (a b : Nat) (h : a ≤ b) : NewNumericDate a ≤ NewNumericDate b := by
  unfold NewNumericDate Second
  omega

theorem ValidateToken_signed (key : String) (clock : Nat → Nat) (d uid : Nat)
    (name : String) (exp iat nbf : Option Nat) :
    middleware.ValidateToken key clock d (.signed uid name exp iat nbf key) =
      if middleware.claimsValid (clock d)
          { UserID := uid, Username := name, ExpiresAt := exp, IssuedAt := iat,
            NotBefore := nbf } then
        (.ok { UserID := uid, Username := name, ExpiresAt := exp, IssuedAt := iat,
               NotBefore := nbf }, d + 1)
      else (.error (.Driver "token has invalid claims"), d + 1) := by
  unfold middleware.ValidateToken middleware.ParseWithClaims
  simp only [ne_eq, not_true_eq_false, if_false]
  by_cases hv : middleware.claimsValid (clock d)
      { UserID := uid, Username := name, ExpiresAt := exp, IssuedAt := iat,
        NotBefore := nbf } = true
  · simp only [hv, if_true]
  · simp only [hv, if_false]
    rfl

/-- A token signed under the key, not yet expired and past its not-before time, is
accepted with its claims. -/
theorem ValidateToken_signed_valid (key : String) (clock : Nat → Nat) (d uid : Nat)
    (name : String) (exp nbf : Nat) (iat : Option Nat) (h1 : clock d < exp)
    (h2 : nbf ≤ clock d) :
    middleware.ValidateToken key clock d (.signed uid name (some exp) iat (some nbf) key) =
      (.ok { UserID := uid, Username := name, ExpiresAt := some exp, IssuedAt := iat,
             NotBefore := some nbf }, d + 1) := by
  rw [ValidateToken_signed]
  simp [middleware.claimsValid, h1, h2]

/-- A token whose expiry is not after the clock reading is rejected. -/
theorem ValidateToken_signed_expired (key : String) (clock : Nat → Nat) (d uid : Nat)
    (name : String) (exp : Nat) (iat nbf : Option Nat) (h : exp ≤ clock d) :
    middleware.ValidateToken key clock d (.signed uid name (some exp) iat nbf key) =
      (.error (.Driver "token has invalid claims"), d + 1) := by
  rw [ValidateToken_signed]
  have : ¬ clock d < exp := by omega
  simp [middleware.claimsValid, this]

/-- An accepted token is a token signed under the key, carrying the returned claims,
and exactly one clock reading was made. -/
theorem ValidateToken_ok_inv (key : String) (clock : Nat → Nat) (c : Nat)
    (tok : TokenString) (claims : Claims)
    (h : (middleware.ValidateToken key clock c tok).1 = .ok claims) :
    tok = .signed claims.UserID claims.Username claims.ExpiresAt claims.IssuedAt
        claims.NotBefore key ∧
      middleware.ValidateToken key clock c tok = (.ok claims, c + 1) := by
  cases tok with
  | text t => simp [middleware.ValidateToken, middleware.ParseWithClaims] at h
  | signed uid name exp iat nbf k =>
    by_cases hk : k = key
    · subst hk
      rw [ValidateToken_signed] at h ⊢
      by_cases hv : middleware.claimsValid (clock c)
          { UserID := uid, Username := name, ExpiresAt := exp, IssuedAt := iat,
            NotBefore := nbf } = true
      · simp only [hv, if_true, Except.ok.injEq] at h ⊢
        subst h
        exact ⟨rfl, rfl⟩
      · simp [hv] at h
    · simp [middleware.ValidateToken, middleware.ParseWithClaims, hk] at h

/-- C15, as amended: for every user ID, username and issuance readings of the clock,
the token returned by `GenerateAccessToken` is accepted by `ValidateToken` at every
later reading that lies before the expiry instant, which is the issuance time plus 15
minutes truncated down to the whole second, and the claims returned carry exactly
that user ID and username; at the expiry instant or later, in particular at any
reading at or after the issuance time plus 15 minutes, it is rejected with an error
and no claims. -/
theorem access_token_window (jwtSecret : String) (clock : Nat → Nat) (c d uid : Nat)
    (name : String) (tok : TokenString)
    (hgen : (middleware.GenerateAccessToken jwtSecret clock c uid name).1 = .ok tok) :
    (clock (c + 2) ≤ clock d → clock d < NewNumericDate (clock c + 15 * Minute) →
      ∃ claims, (middleware.ValidateToken jwtSecret clock d tok).1 = .ok claims ∧
        claims.UserID = uid ∧ claims.Username = name) ∧
    (NewNumericDate (clock c + 15 * Minute) ≤ clock d →
      ∃ err, (middleware.ValidateToken jwtSecret clock d tok).1 = .error err) ∧
    (clock c + 15 * Minute ≤ clock d →
      ∃ err, (middleware.ValidateToken jwtSecret clock d tok).1 = .error err) := by
  have htok : tok = .signed uid name (some (NewNumericDate (clock c + 15 * Minute)))
      (some (NewNumericDate (clock (c + 1)))) (some (NewNumericDate (clock (c + 2))))
      jwtSecret := by
    simp only [middleware.GenerateAccessToken, middleware.SignedString,
      middleware.accessClaims, Except.ok.injEq] at hgen
    exact hgen.symm
  subst htok
  refine ⟨?_, ?_, ?_⟩
  · intro hnbf hexp
    rw [ValidateToken_signed_valid _ _ _ _ _ _ _ _ hexp
      (le_trans (NewNumericDate_le _) hnbf)]
    exact ⟨_, rfl, rfl, rfl⟩
  · intro hexp
    rw [ValidateToken_signed_expired _ _ _ _ _ _ _ _ hexp]
    exact ⟨_, rfl⟩
  · intro hexp
    rw [ValidateToken_signed_expired _ _ _ _ _ _ _ _
      (le_trans (NewNumericDate_le _) hexp)]
    exact ⟨_, rfl⟩

/-- C15, as amended, on an example: the token issued to `alice` half a second after
the epoch is accepted at that same reading. -/
theorem access_token_window_witness :
    (middleware.GenerateAccessToken "k" clockStopped 0 7 "alice").1 = .ok accessTokenAlice ∧
    ∃ claims, (middleware.ValidateToken "k" clockStopped 3 accessTokenAlice).1 = .ok claims ∧
      claims.UserID = 7 ∧ claims.Username = "alice" :=
  ⟨by rfl,
    (access_token_window "k" clockStopped 0 3 7 "alice" accessTokenAlice (by rfl)).1
      (by decide) (by decide)⟩

/-- C15, as stated, fails: a token issued half a second after the epoch (`t`) is
rejected at 900.2 seconds, a time inside `[t, t + 15 minutes)`, because its expiry
claim is 900.5 seconds truncated to 900 seconds. -/
theorem access_token_expires_before_window_end :
    (middleware.GenerateAccessToken "k" clockHalfSecond 0 7 "alice").1
      = .ok accessTokenAlice ∧
    clockHalfSecond 0 ≤ clockHalfSecond 3 ∧
    clockHalfSecond 3 < clockHalfSecond 0 + 15 * Minute ∧
    middleware.ValidateToken "k" clockHalfSecond 3 accessTokenAlice
      = (.error (.Driver "token has invalid claims"), 4) :=
  ⟨by rfl, by decide, by decide, by rfl⟩

/-! ## Properties of token refresh -/

theorem Refresh_of_valid (jwtSecret : String) (clock : Nat → Nat) (c : Nat)
    (tok : TokenString) (claims : Claims)
    (h : (middleware.ValidateToken jwtSecret clock c tok).1 = .ok claims) :
    AuthHandler.Refresh jwtSecret clock c (.ok { RefreshToken := tok }) =
      ({ status := 200
         body := .RefreshResponse
           (.signed claims.UserID claims.Username
             (some (NewNumericDate (clock (c + 1) + 15 * Minute)))
             (some (NewNumericDate (clock (c + 2)))) (some (NewNumericDate (clock (c + 3))))
             jwtSecret)
           (.signed claims.UserID claims.Username
             (some (NewNumericDate (clock (c + 4) + 7 * 24 * Hour)))
             (some (NewNumericDate (clock (c + 5)))) (some (NewNumericDate (clock (c + 6))))
             jwtSecret)
           "Token refreshed successfully" }, c + 7) := by
  obtain ⟨htok, hval⟩ := ValidateToken_ok_inv jwtSecret clock c tok claims h
  have hne : tok ≠ .text "" := by rw [htok]; simp
  unfold AuthHandler.Refresh AuthHandler.bindRefreshRequest
  simp only [hne, if_false, hval]
  rfl

theorem Refresh_of_invalid (jwtSecret : String) (clock : Nat → Nat) (c : Nat)
    (tok : TokenString) (err : Error) (hne : tok ≠ .text "")
    (h : (middleware.ValidateToken jwtSecret clock c tok).1 = .error err) :
    (AuthHandler.Refresh jwtSecret clock c (.ok { RefreshToken := tok })).1 =
      { status := 401, body := .ErrorResponse "Invalid or expired refresh token" } := by
  unfold AuthHandler.Refresh AuthHandler.bindRefreshRequest
  simp only [hne, if_false, h]

theorem Refresh_of_empty (jwtSecret : String) (clock : Nat → Nat) (c : Nat) :
    AuthHandler.Refresh jwtSecret clock c (.ok { RefreshToken := .text "" }) =
      ({ status := 400
         body := .ErrorResponse ("Key: 'RefreshRequest.RefreshToken' Error:" ++
           "Field validation for 'RefreshToken' failed on the 'required' tag") }, c) := by
  rfl

/-- C16, as amended. For every token that `ValidateToken` accepts with claims
`(user_id, username)`, the `Refresh` handler answers 200 with a new access token whose
expiry is the refresh time plus 15 minutes, truncated down to the whole second, and a
new refresh token whose expiry is the refresh time plus 7 days, truncated likewise;
each of them, presented to `ValidateToken` at a later reading before its expiry, is
accepted with exactly that user ID and username. For every token that `ValidateToken`
rejects, `Refresh` answers with an error body and issues no token; the status is 401,
except for the empty token, which the request binding rejects with 400. -/
theorem Refresh_exchanges_token (jwtSecret : String) (clock : Nat → Nat) (c : Nat)
    (tok : TokenString) :
    (∀ claims, (middleware.ValidateToken jwtSecret clock c tok).1 = .ok claims →
      ∃ access refresh,
        AuthHandler.Refresh jwtSecret clock c (.ok { RefreshToken := tok }) =
          ({ status := 200
             body := .RefreshResponse access refresh "Token refreshed successfully" },
            c + 7) ∧
        access = .signed claims.UserID claims.Username
          (some (NewNumericDate (clock (c + 1) + 15 * Minute)))
          (some (NewNumericDate (clock (c + 2)))) (some (NewNumericDate (clock (c + 3))))
          jwtSecret ∧
        refresh = .signed claims.UserID claims.Username
          (some (NewNumericDate (clock (c + 4) + 7 * 24 * Hour)))
          (some (NewNumericDate (clock (c + 5)))) (some (NewNumericDate (clock (c + 6))))
          jwtSecret ∧
        (∀ d, clock (c + 3) ≤ clock d →
          clock d < NewNumericDate (clock (c + 1) + 15 * Minute) →
          ∃ cl, (middleware.ValidateToken jwtSecret clock d access).1 = .ok cl ∧
            cl.UserID = claims.UserID ∧ cl.Username = claims.Username) ∧
        (∀ d, clock (c + 6) ≤ clock d →
          clock d < NewNumericDate (clock (c + 4) + 7 * 24 * Hour) →
          ∃ cl, (middleware.ValidateToken jwtSecret clock d refresh).1 = .ok cl ∧
            cl.UserID = claims.UserID ∧ cl.Username = claims.Username)) ∧
    (∀ err, (middleware.ValidateToken jwtSecret clock c tok).1 = .error err →
      (∃ msg, (AuthHandler.Refresh jwtSecret clock c (.ok { RefreshToken := tok })).1.body
        = .ErrorResponse msg) ∧
      (tok ≠ .text "" →
        (AuthHandler.Refresh jwtSecret clock c (.ok { RefreshToken := tok })).1.status = 401) ∧
      (tok = .text "" →
        (AuthHandler.Refresh jwtSecret clock c (.ok { RefreshToken := tok })).1.status
          = 400)) := by
  refine ⟨?_, ?_⟩
  · intro claims h
    refine ⟨_, _, Refresh_of_valid jwtSecret clock c tok claims h, rfl, rfl, ?_, ?_⟩
    · intro d hnbf hexp
      rw [ValidateToken_signed_valid _ _ _ _ _ _ _ _ hexp
        (le_trans (NewNumericDate_le _) hnbf)]
      exact ⟨_, rfl, rfl, rfl⟩
    · intro d hnbf hexp
      rw [ValidateToken_signed_valid _ _ _ _ _ _ _ _ hexp
        (le_trans (NewNumericDate_le _) hnbf)]
      exact ⟨_, rfl, rfl, rfl⟩
  · intro err h
    by_cases hne : tok = .text ""
    · subst hne
      rw [Refresh_of_empty]
      exact ⟨⟨_, rfl⟩, fun h0 => absurd rfl h0, fun _ => rfl⟩
    · rw [Refresh_of_invalid jwtSecret clock c tok err hne h]
      exact ⟨⟨_, rfl⟩, fun _ => rfl, fun h0 => absurd h0 hne⟩

/-- C16, as stated, fails in two places. The empty token is rejected by
`ValidateToken`, yet `Refresh` answers 400, not 401. And a refresh half a second after
the epoch returns an access token expiring at 900 seconds and a refresh token
expiring at 604800 seconds, which is not 15 minutes and 7 days after the refresh
time. -/
theorem Refresh_status_and_expiry_differ :
    ((middleware.ValidateToken "k" clockStopped 0 (.text "")).1
        = .error (.Driver "token is malformed") ∧
      (AuthHandler.Refresh "k" clockStopped 0 (.ok { RefreshToken := .text "" })).1.status
        = 400) ∧
    ((middleware.ValidateToken "k" clockStopped 0 accessTokenAlice).1
        = .ok { UserID := 7, Username := "alice", ExpiresAt := some 900000000000,
                IssuedAt := some 0, NotBefore := some 0 } ∧
      (AuthHandler.Refresh "k" clockStopped 0 (.ok { RefreshToken := accessTokenAlice })).1
        = { status := 200
            body := .RefreshResponse
              (.signed 7 "alice" (some 900000000000) (some 0) (some 0) "k")
              (.signed 7 "alice" (some 604800000000000) (some 0) (some 0) "k")
              "Token refreshed successfully" } ∧
      900000000000 ≠ clockStopped 1 + 15 * Minute ∧
      604800000000000 ≠ clockStopped 4 + 7 * 24 * Hour) :=
  ⟨⟨by rfl, by rfl⟩, ⟨by rfl, by rfl, by decide, by decide⟩⟩

/-- C20: access and refresh tokens are not distinguished by type. For the same user
and the same clock readings, the claims built by `GenerateAccessToken` and by
`GenerateRefreshToken` differ only in `ExpiresAt`. `ValidateToken` accepts the token
of either kind while the access token is unexpired. And `Refresh`, given such an
unexpired access token in place of a refresh token, answers 200 and issues a new
refresh token whose expiry is 7 days (truncated to the second) after the refresh. -/
theorem access_token_accepted_as_refresh_token (jwtSecret : String) (clock : Nat → Nat)
    (c d uid : Nat) (name : String) (access refresh : TokenString)
    (haccess : (middleware.GenerateAccessToken jwtSecret clock c uid name).1 = .ok access)
    (hrefresh : (middleware.GenerateRefreshToken jwtSecret clock c uid name).1 = .ok refresh)
    (hnbf : clock (c + 2) ≤ clock d)
    (hexp : clock d < NewNumericDate (clock c + 15 * Minute)) :
    { middleware.accessClaims clock c uid name with
        ExpiresAt := (middleware.refreshClaims clock c uid name).ExpiresAt }
      = middleware.refreshClaims clock c uid name ∧
    (∃ cl, (middleware.ValidateToken jwtSecret clock d access).1 = .ok cl ∧
      cl.UserID = uid ∧ cl.Username = name) ∧
    (∃ cl, (middleware.ValidateToken jwtSecret clock d refresh).1 = .ok cl ∧
      cl.UserID = uid ∧ cl.Username = name) ∧
    ∃ newAccess,
      AuthHandler.Refresh jwtSecret clock d (.ok { RefreshToken := access }) =
        ({ status := 200
           body := .RefreshResponse newAccess
             (.signed uid name (some (NewNumericDate (clock (d + 4) + 7 * 24 * Hour)))
               (some (NewNumericDate (clock (d + 5)))) (some (NewNumericDate (clock (d + 6))))
               jwtSecret)
             "Token refreshed successfully" }, d + 7) := by
  have ha : access = .signed uid name (some (NewNumericDate (clock c + 15 * Minute)))
      (some (NewNumericDate (clock (c + 1)))) (some (NewNumericDate (clock (c + 2))))
      jwtSecret := by
    simp only [middleware.GenerateAccessToken, middleware.SignedString,
      middleware.accessClaims, Except.ok.injEq] at haccess
    exact haccess.symm
  have hr : refresh = .signed uid name (some (NewNumericDate (clock c + 7 * 24 * Hour)))
      (some (NewNumericDate (clock (c + 1)))) (some (NewNumericDate (clock (c + 2))))
      jwtSecret := by
    simp only [middleware.GenerateRefreshToken, middleware.SignedString,
      middleware.refreshClaims, Except.ok.injEq] at hrefresh
    exact hrefresh.symm
  subst ha hr
  have hnbf2 : NewNumericDate (clock (c + 2)) ≤ clock d :=
    le_trans (NewNumericDate_le _) hnbf
  have hexp7 : clock d < NewNumericDate (clock c + 7 * 24 * Hour) :=
    lt_of_lt_of_le hexp (NewNumericDate_mono _ _ (by unfold Minute Hour Minute Second; omega))
  have hva := ValidateToken_signed_valid jwtSecret clock d uid name _ _
    (some (NewNumericDate (clock (c + 1)))) hexp hnbf2
  have hvr := ValidateToken_signed_valid jwtSecret clock d uid name _ _
    (some (NewNumericDate (clock (c + 1)))) hexp7 hnbf2
  refine ⟨rfl, ⟨_, by rw [hva], rfl, rfl⟩, ⟨_, by rw [hvr], rfl, rfl⟩, ?_⟩
  exact ⟨_, Refresh_of_valid jwtSecret clock d _ _ (by rw [hva])⟩

/-- C20, on an example: the access token of `alice`, presented to `Refresh` while
unexpired, is exchanged for a new refresh token expiring at 604800 seconds. -/
theorem access_token_accepted_as_refresh_token_witness :
    (middleware.GenerateAccessToken "k" clockStopped 0 7 "alice").1 = .ok accessTokenAlice ∧
    clockStopped (0 + 2) ≤ clockStopped 3 ∧
    clockStopped 3 < NewNumericDate (clockStopped 0 + 15 * Minute) ∧
    ∃ newAccess,
      AuthHandler.Refresh "k" clockStopped 3 (.ok { RefreshToken := accessTokenAlice }) =
        ({ status := 200
           body := .RefreshResponse newAccess
             (.signed 7 "alice"
               (some (NewNumericDate (clockStopped (3 + 4) + 7 * 24 * Hour)))
               (some (NewNumericDate (clockStopped (3 + 5))))
               (some (NewNumericDate (clockStopped (3 + 6)))) "k")
             "Token refreshed successfully" }, 3 + 7) :=
  ⟨by rfl, by decide, by decide,
    (access_token_accepted_as_refresh_token "k" clockStopped 0 3 7 "alice" accessTokenAlice
      (.signed 7 "alice" (some 604800000000000) (some 0) (some 0) "k")
      (by rfl) (by rfl) (by decide) (by decide)).2.2.2⟩

/-! ## Properties of creation on repositories that misbehave -/

/-- C18, what the code does: a lookup that fails with a store error is handled like a
collision. For every generator tape that yields five codes, on the repository whose
lookups all fail with the driver error `msg`, the allocator makes all 5 attempts and
returns `failed to generate unique code`; `CreateShortURL` for a valid URL returns
that error, not the store error. -/
theorem store_failure_reported_as_exhaustion :
    (∀ (now : Nat) (msg : String) (tape : Nat → Except Error String) (k : Nat) (db : DB),
      (∀ i, i < 5 → ∃ c, tape (k + i) = .ok c) →
      urlService.generateUniqueCode (failingRepository now msg) tape k db
        = (.error (.New "failed to generate unique code"), db, k + 5)) ∧
    urlService.CreateShortURL urlParseSample (failingRepository 10 "connection refused")
        tapeSample "https://a.example/path" none (some "anon-1") 0 dbEmpty
      = (.error (.New "failed to generate unique code"), dbEmpty, 5) := by
  refine ⟨?_, by rfl⟩
  intro now msg tape k db h
  obtain ⟨c0, h0⟩ := h 0 (by omega)
  obtain ⟨c1, h1⟩ := h 1 (by omega)
  obtain ⟨c2, h2⟩ := h 2 (by omega)
  obtain ⟨c3, h3⟩ := h 3 (by omega)
  obtain ⟨c4, h4⟩ := h 4 (by omega)
  simp only [Nat.add_zero] at h0
  have e2 : k + 1 + 1 = k + 2 := rfl
  have e3 : k + 2 + 1 = k + 3 := rfl
  have e4 : k + 3 + 1 = k + 4 := rfl
  have e5 : k + 4 + 1 = k + 5 := rfl
  simp [urlService.generateUniqueCode, urlService.maxRetries,
    urlService.generateUniqueCodeLoop, failingRepository, errOf, errorsIs,
    h0, h1, e2, h2, e3, h3, e4, h4, e5]

/-! ## Properties of listing -/

/-- C19, on an example: the three links of user 7, created at 10, 30 and 20 under one
UTC offset, are listed in the order 30, 20, 10, and the link of `anon-1` is not among
them. -/
theorem listing_sample_run :
    (match (urlService.ListUserURLs (NewURLRepository 40) 7 dbListing).1 with
      | .ok l => l.map (fun r => (r.ShortCode, r.CreatedAt))
      | .error _ => [])
      = [("cccccccc", 30), ("dddddddd", 20), ("bbbbbbbb", 10)] ∧
    (match (urlService.ListAnonymousURLs (NewURLRepository 40) "anon-1" dbListing).1 with
      | .ok l => l.map (fun r => (r.ShortCode, r.CreatedAt))
      | .error _ => [])
      = [("aaaaaaaa", 10)] :=
  ⟨by rfl, by rfl⟩

end UrlShortener
